import Mathlib

/-!
# Verification of the activity-collector pipeline

A shallow embedding, in Lean 4, of the core components of the local
activity-collector repository (normalizer, privacy guard, priority
processor, routine miner, handoff builder, store insert path), together
with proofs settling the specification claims about them.

Conventions used throughout the embedding:
* Python `str` is modelled by `String`; character-level scanning works on
  `List Char` (`String.data`).
* Python dicts are modelled by insertion-ordered association lists
  (`List (String × α)`); CPython dicts preserve insertion order.
* Python JSON-ish dynamic values (`Any` payload values) are modelled by
  the inductive `PVal`.  Floats do not occur in the payloads relevant to
  the claims, so numbers are modelled by `Int`.
* Timestamps (`datetime` values and epoch seconds) are modelled by `Int`
  epoch MICROseconds — exact, since `datetime` has microsecond
  resolution; durations and day differences are integer arithmetic on
  them.  Ratios and backoff sleeps stay in `ℚ`.
* Impure calls (`uuid.uuid4()`, `utc_now()`) are passed in as explicit
  parameters of the embedded functions.
* HMAC-SHA-256 (`utils/hashing.hmac_sha256`) is kept abstract: the
  privacy guard carries the salted hash as a `String → String` field.
  No claim depends on the value of a digest.
-/

/-! ## Python-style character and string utilities -/
/-- ASCII uppercase letter (regex class `A-Z`). -/
def isAsciiUpper (c : Char) : Bool := 'A' ≤ c && c ≤ 'Z'

/-- ASCII lowercase letter (regex class `a-z`). -/
def isAsciiLower (c : Char) : Bool := 'a' ≤ c && c ≤ 'z'

/-- ASCII letter (regex class `A-Za-z`). -/
def isAsciiAlpha (c : Char) : Bool := isAsciiUpper c || isAsciiLower c

/-- ASCII digit (regex class `0-9`). -/
def isAsciiDigit (c : Char) : Bool := '0' ≤ c && c ≤ '9'

/-- `str.lower` restricted to ASCII (the only characters the claims use). -/
def pyToLower (c : Char) : Char :=
  if isAsciiUpper c then Char.ofNat (c.toNat + 32) else c

/-- `str.lower` on a whole string. -/
def pyLower (s : String) : String := String.mk (s.data.map pyToLower)

/-- Python whitespace for `str.strip`. -/
def isPySpace (c : Char) : Bool :=
  c = ' ' || c = '\t' || c = '\n' || c = '\r' || c = '\x0b' || c = '\x0c'

/-- `str.strip()` on a character list. -/
def pyStripChars (cs : List Char) : List Char :=
  ((cs.dropWhile isPySpace).reverse.dropWhile isPySpace).reverse

/-- `str.strip()`. -/
def pyStrip (s : String) : String := String.mk (pyStripChars s.data)

/-- Split a character list at the first occurrence of `sep`
(`str.split(sep, 1)` when the separator occurs). -/
def splitFirstAt (sep : Char) : List Char → Option (List Char × List Char)
  | [] => Option.none
  | c :: rest =>
      if c = sep then some ([], rest)
      else (splitFirstAt sep rest).map (fun p => (c :: p.1, p.2))

/-- `str.replace(old, new)` (all occurrences, left to right) on char
lists; structural on a fuel bound of the input length (each step consumes
at least one character, so the bound is exact). -/
def replaceAllCharsAux (old new : List Char) : Nat → List Char → List Char
  | 0, cs => cs
  | _, [] => []
  | fuel + 1, c :: rest =>
      if old ≠ [] ∧ old.isPrefixOf (c :: rest) then
        new ++ replaceAllCharsAux old new fuel ((c :: rest).drop old.length)
      else
        c :: replaceAllCharsAux old new fuel rest

/-- `str.replace(old, new)` on char lists. -/
def replaceAllChars (old new cs : List Char) : List Char :=
  replaceAllCharsAux old new cs.length cs

/-- `str.replace(old, new)`. -/
def pyReplace (s old new : String) : String :=
  String.mk (replaceAllChars old.data new.data s.data)

/-- Bool-valued substring check (Python `needle in haystack` for strings). -/
def containsSub (haystack needle : List Char) : Bool :=
  match haystack with
  | [] => needle.isEmpty
  | _ :: rest => needle.isPrefixOf haystack || containsSub rest needle

/-- Python `int(str)` for optionally signed decimal digit strings
(surrounding whitespace stripped, as `int` does). -/
def pyParseInt (s : String) : Option Int :=
  let cs := pyStripChars s.data
  let (sign, digits) :=
    match cs with
    | '-' :: rest => ((-1 : Int), rest)
    | '+' :: rest => ((1 : Int), rest)
    | _ => ((1 : Int), cs)
  if digits = [] ∨ ¬ digits.all isAsciiDigit then Option.none
  else some (sign * (digits.foldl (fun acc c => acc * 10 + ((c.toNat : Int) - 48)) 0))

/-- Left-pad a decimal rendering of a natural number with zeros. -/
def padNat (width n : Nat) : String :=
  let s := toString n
  String.mk (List.replicate (width - s.length) '0') ++ s

/-! ## Dynamic payload values (`Any` in the source) -/
/-- A Python/JSON-ish dynamic value, as appearing in event payloads and
raw inbound objects.  Dicts are insertion-ordered association lists. -/
inductive PVal where
  | str (s : String)
  | int (n : Int)
  | bool (b : Bool)
  | none
  | list (items : List PVal)
  | dict (items : List (String × PVal))
  deriving Repr

mutual

/-- Structural equality test for `PVal`. -/
def pvalBeq : PVal → PVal → Bool
  | .str a, .str b => a = b
  | .int a, .int b => a = b
  | .bool a, .bool b => a = b
  | .none, .none => true
  | .list a, .list b => pvalListBeq a b
  | .dict a, .dict b => pvalKVsBeq a b
  | _, _ => false

/-- Structural equality test for `PVal` lists. -/
def pvalListBeq : List PVal → List PVal → Bool
  | [], [] => true
  | a :: as, b :: bs => pvalBeq a b && pvalListBeq as bs
  | _, _ => false

/-- Structural equality test for `PVal` association lists. -/
def pvalKVsBeq : List (String × PVal) → List (String × PVal) → Bool
  | [], [] => true
  | (ka, va) :: as, (kb, vb) :: bs => (ka = kb : Bool) && pvalBeq va vb && pvalKVsBeq as bs
  | _, _ => false

end

mutual

def pvalBeq_iff : ∀ (a b : PVal), (pvalBeq a b = true) ↔ a = b
  | .str _, b => by cases b <;> simp [pvalBeq]
  | .int _, b => by cases b <;> simp [pvalBeq]
  | .bool _, b => by cases b <;> simp [pvalBeq]
  | .none, b => by cases b <;> simp [pvalBeq]
  | .list xs, .list ys => by simp [pvalBeq, pvalListBeq_iff xs ys]
  | .list _, .str _ => by simp [pvalBeq]
  | .list _, .int _ => by simp [pvalBeq]
  | .list _, .bool _ => by simp [pvalBeq]
  | .list _, .none => by simp [pvalBeq]
  | .list _, .dict _ => by simp [pvalBeq]
  | .dict xs, .dict ys => by simp [pvalBeq, pvalKVsBeq_iff xs ys]
  | .dict _, .str _ => by simp [pvalBeq]
  | .dict _, .int _ => by simp [pvalBeq]
  | .dict _, .bool _ => by simp [pvalBeq]
  | .dict _, .none => by simp [pvalBeq]
  | .dict _, .list _ => by simp [pvalBeq]

def pvalListBeq_iff : ∀ (a b : List PVal), (pvalListBeq a b = true) ↔ a = b
  | [], [] => by simp [pvalListBeq]
  | [], _ :: _ => by simp [pvalListBeq]
  | _ :: _, [] => by simp [pvalListBeq]
  | x :: xs, y :: ys => by
      simp [pvalListBeq, pvalBeq_iff x y, pvalListBeq_iff xs ys]

def pvalKVsBeq_iff : ∀ (a b : List (String × PVal)), (pvalKVsBeq a b = true) ↔ a = b
  | [], [] => by simp [pvalKVsBeq]
  | [], _ :: _ => by simp [pvalKVsBeq]
  | _ :: _, [] => by simp [pvalKVsBeq]
  | (ka, va) :: xs, (kb, vb) :: ys => by
      simp [pvalKVsBeq, pvalBeq_iff va vb, pvalKVsBeq_iff xs ys, and_assoc]

end

instance : DecidableEq PVal := fun a b => decidable_of_iff _ (pvalBeq_iff a b)

/-- Python truthiness (`if value:`). -/
def pvalTruthy : PVal → Bool
  | .str s => s ≠ ""
  | .int n => n ≠ 0
  | .bool b => b
  | .none => false
  | .list items => ¬ items.isEmpty
  | .dict items => ¬ items.isEmpty

/-- Quote a string the way Python `repr` does (single quotes, backslash
escapes); only its totality and non-emptiness matter to the claims. -/
def pyReprStr (s : String) : String :=
  "'" ++ String.mk (s.data.flatMap (fun c =>
    if c = '\\' ∨ c = '\'' then ['\\', c] else [c])) ++ "'"

mutual

/-- Python `str(value)` for the dynamic values of the model. -/
def pythonStr : PVal → String
  | .str s => s
  | .int n => toString n
  | .bool b => if b then "True" else "False"
  | .none => "None"
  | .list items => "[" ++ pythonStrList items ++ "]"
  | .dict items => "\x7b" ++ pythonStrKVs items ++ "\x7d"

/-- `repr`-joined list items. -/
def pythonStrList : List PVal → String
  | [] => ""
  | [v] => pythonRepr v
  | v :: rest => pythonRepr v ++ ", " ++ pythonStrList rest

/-- `repr`-joined dict items. -/
def pythonStrKVs : List (String × PVal) → String
  | [] => ""
  | [(k, v)] => pyReprStr k ++ ": " ++ pythonRepr v
  | (k, v) :: rest => pyReprStr k ++ ": " ++ pythonRepr v ++ ", " ++ pythonStrKVs rest

/-- Python `repr(value)` (strings quoted, containers recursive). -/
def pythonRepr : PVal → String
  | .str s => pyReprStr s
  | v => pythonStr' v

/-- Helper: `str` on non-string values agrees with `repr`. -/
def pythonStr' : PVal → String
  | .str s => s
  | .int n => toString n
  | .bool b => if b then "True" else "False"
  | .none => "None"
  | .list items => "[" ++ pythonStrList items ++ "]"
  | .dict items => "\x7b" ++ pythonStrKVs items ++ "\x7d"

end

/-- First-occurrence lookup in an association list (`dict[k]` /
`dict.get(k)` — CPython dicts cannot hold duplicate keys, so the inputs
the model cares about have unique keys and this is exact). -/
def alookup (k : String) : List (String × PVal) → Option PVal
  | [] => Option.none
  | (k', v) :: rest => if k' = k then some v else alookup k rest

/-- `raw.get(key)`: missing keys read as Python `None`. -/
def dget (items : List (String × PVal)) (k : String) : PVal :=
  match alookup k items with
  | some v => v
  | Option.none => .none

/-- `key in dict` (presence, distinct from a `None` value). -/
def dhasKey (items : List (String × PVal)) (k : String) : Bool :=
  (alookup k items).isSome

/-- Dict assignment `d[k] = v`: update in place if the key exists
(keeping its position, as CPython does), else append. -/
def aset (k : String) (v : PVal) : List (String × PVal) → List (String × PVal)
  | [] => [(k, v)]
  | (k', v') :: rest => if k' = k then (k', v) :: rest else (k', v') :: aset k v rest

/-! ## Email extraction (`privacy.EMAIL_PATTERN.findall`)

The source pattern is `[A-Za-z0-9._%+-]+@[A-Za-z0-9.-]+\.[A-Za-z]{2,}`.
The functions below implement Python `re` scanning for exactly this
pattern: leftmost match, greedy components with backtracking.  Since
`@` belongs to neither character class, the local part never backtracks;
the domain part backtracks the position of the final dot from the right.
-/
/-- Character class of the local part, `[A-Za-z0-9._%+-]`. -/
def isLocalChar (c : Char) : Bool :=
  isAsciiAlpha c || isAsciiDigit c || c = '.' || c = '_' || c = '%' || c = '+' || c = '-'

/-- Character class of the domain part, `[A-Za-z0-9.-]`. -/
def isDomainChar (c : Char) : Bool :=
  isAsciiAlpha c || isAsciiDigit c || c = '.' || c = '-'

/-- Backtracking search for the split point of `[A-Za-z0-9.-]+\.[A-Za-z]{2,}`
inside the maximal domain-character run `m`: try the final dot at index
`j`, largest first (greedy `+`), requiring at least one domain character
before it and at least two letters after it.  Returns the matched
characters and the number of characters of `m` consumed. -/
def domainBacktrack (m : List Char) : Nat → Option (List Char × Nat)
  | 0 => Option.none
  | j + 1 =>
      let lets := (m.drop (j + 2)).takeWhile isAsciiAlpha
      if m.get? (j + 1) = some '.' ∧ 2 ≤ lets.length then
        some (m.take (j + 1) ++ '.' :: lets, j + 2 + lets.length)
      else
        domainBacktrack m j

/-- Match `[A-Za-z0-9.-]+\.[A-Za-z]{2,}` at the start of `cs` (the text
following an `@`); returns the match and the number of characters consumed. -/
def domainMatch (cs : List Char) : Option (List Char × Nat) :=
  let m := cs.takeWhile isDomainChar
  domainBacktrack m (m.length - 1)

/-- One step bound used for fuel: the scan always consumes at least one
character per recursive call, so `cs.length` fuel suffices. -/
def emailScanAux : Nat → List Char → List (List Char)
  | 0, _ => []
  | _, [] => []
  | fuel + 1, c :: cs =>
      let a := (c :: cs).takeWhile isLocalChar
      if a.isEmpty then emailScanAux fuel cs
      else
        match (c :: cs).dropWhile isLocalChar with
        | '@' :: ds =>
            match domainMatch ds with
            | some (dom, used) =>
                (a ++ '@' :: dom) :: emailScanAux fuel (ds.drop used)
            | Option.none => emailScanAux fuel ds
        | _ => emailScanAux fuel ((c :: cs).dropWhile isLocalChar)

/-- `EMAIL_PATTERN.findall(s)`. -/
def emailFindall (s : String) : List (List Char) :=
  emailScanAux s.data.length s.data

/-- `privacy._extract_domain`: lower-case, split at the first `@`, take the
part after it, strip whitespace; `""` when no `@` is present. -/
def extract_domain (email : List Char) : List Char :=
  let low := email.map pyToLower
  match splitFirstAt '@' low with
  | Option.none => []
  | some (_, dom) => pyStripChars dom

mutual

/-- `privacy._collect_emails`: regex-scan strings, recurse into dict values
and list items.  (Python also recurses into tuples and sets, which do not
occur in JSON payloads.) -/
def collect_emails : PVal → List (List Char)
  | .str s => emailFindall s
  | .list items => collectEmailsList items
  | .dict items => collectEmailsKVs items
  | _ => []

/-- `_collect_emails` over list items, in order. -/
def collectEmailsList : List PVal → List (List Char)
  | [] => []
  | v :: rest => collect_emails v ++ collectEmailsList rest

/-- `_collect_emails` over dict values, in insertion order. -/
def collectEmailsKVs : List (String × PVal) → List (List Char)
  | [] => []
  | (_, v) :: rest => collect_emails v ++ collectEmailsKVs rest

end

/-- `privacy._coerce_recipient_count` (recall `bool` is an `int` subclass
in Python, so it is caught by the numeric branches). -/
def coerce_recipient_count : PVal → Option Int
  | .int n => some n
  | .bool b => some (if b then 1 else 0)
  | .str s => if pyStrip s = "" then Option.none else some 1
  | .dict items =>
      match alookup "count" items with
      | some (.int n) => some n
      | some (.bool b) => some (if b then 1 else 0)
      | _ => Option.none
  | .list items => some (items.length : Int)
  | .none => Option.none

/-- `domain_stats[d] = domain_stats.get(d, 0) + 1` on an insertion-ordered
counter. -/
def bumpCount (k : String) : List (String × Int) → List (String × Int)
  | [] => [(k, 1)]
  | (k', n) :: rest =>
      if k' = k then (k', n + 1) :: rest else (k', n) :: bumpCount k rest

/-- `privacy._summarize_recipients`. -/
def summarize_recipients (v : PVal) : PVal :=
  let emails := collect_emails v
  if emails.isEmpty then
    match coerce_recipient_count v with
    | Option.none => .dict [("count", .int 0)]
    | some n => .dict [("count", .int n)]
  else
    let domainStats := emails.foldl (fun acc e =>
      if (extract_domain e).isEmpty then acc
      else bumpCount (String.mk (extract_domain e)) acc) []
    let base := [("count", PVal.int (emails.length : Int))]
    PVal.dict (if domainStats.isEmpty then base
      else base ++ [("domain_stats",
        PVal.dict (domainStats.map (fun p => (p.1, PVal.int p.2))))])

/-! ## JSON serialization (`json.dumps(..., separators=(",", ":"))`) -/
/-- Lowercase hex digit. -/
def hexDigit (n : Nat) : Char :=
  if n < 10 then Char.ofNat (48 + n) else Char.ofNat (87 + n)

/-- Four lowercase hex digits. -/
def hex4 (n : Nat) : List Char :=
  [hexDigit (n / 4096 % 16), hexDigit (n / 256 % 16), hexDigit (n / 16 % 16), hexDigit (n % 16)]

/-- `json.dumps` escaping of one character with the default
`ensure_ascii=True` (non-ASCII escaped as `\uXXXX`, astral characters as
surrogate pairs). -/
def jsonEscapeChar (c : Char) : List Char :=
  if c = '"' then ['\\', '"']
  else if c = '\\' then ['\\', '\\']
  else if c = '\n' then ['\\', 'n']
  else if c = '\r' then ['\\', 'r']
  else if c = '\t' then ['\\', 't']
  else if c = '\x08' then ['\\', 'b']
  else if c = '\x0c' then ['\\', 'f']
  else if c.toNat < 0x20 ∨ 0x7e < c.toNat then
    if c.toNat ≤ 0xffff then '\\' :: 'u' :: hex4 c.toNat
    else
      let v := c.toNat - 0x10000
      ('\\' :: 'u' :: hex4 (0xd800 + v / 1024)) ++ ('\\' :: 'u' :: hex4 (0xdc00 + v % 1024))
  else [c]

/-- JSON string literal. -/
def jsonQuote (s : String) : String :=
  "\"" ++ String.mk (s.data.flatMap jsonEscapeChar) ++ "\""

mutual

/-- `json.dumps(value, separators=(",", ":"))` for the model's values. -/
def jsonDumps : PVal → String
  | .str s => jsonQuote s
  | .int n => toString n
  | .bool b => if b then "true" else "false"
  | .none => "null"
  | .list items => "[" ++ jsonDumpsList items ++ "]"
  | .dict items => "\x7b" ++ jsonDumpsKVs items ++ "\x7d"

/-- Comma-joined list items. -/
def jsonDumpsList : List PVal → String
  | [] => ""
  | [v] => jsonDumps v
  | v :: rest => jsonDumps v ++ "," ++ jsonDumpsList rest

/-- Comma-joined `"key":value` pairs. -/
def jsonDumpsKVs : List (String × PVal) → String
  | [] => ""
  | [(k, v)] => jsonQuote k ++ ":" ++ jsonDumps v
  | (k, v) :: rest => jsonQuote k ++ ":" ++ jsonDumps v ++ "," ++ jsonDumpsKVs rest

end

/-! ## Time (`utils/time.py`, `datetime`)

`datetime` instants are modelled as exact rational seconds since the Unix
epoch, always in UTC (`parse_ts` attaches UTC to naive datetimes, and
every producer in the pipeline emits UTC timestamps).
-/
/-- Days from 1970-01-01 of a civil date (Howard Hinnant's algorithm,
floor divisions). -/
def daysFromCivil (y m d : Int) : Int :=
  let y' := if m ≤ 2 then y - 1 else y
  let era := Int.fdiv (if 0 ≤ y' then y' else y' - 399) 400
  let yoe := y' - era * 400
  let doy := Int.fdiv (153 * (m + (if 2 < m then -3 else 9)) + 2) 5 + d - 1
  let doe := yoe * 365 + Int.fdiv yoe 4 - Int.fdiv yoe 100 + doy
  era * 146097 + doe - 719468

/-- Civil date from days since 1970-01-01 (inverse of `daysFromCivil`). -/
def civilFromDays (z0 : Int) : Int × Int × Int :=
  let z := z0 + 719468
  let era := Int.fdiv z 146097
  let doe := z - era * 146097
  let yoe := Int.fdiv (doe - Int.fdiv doe 1460 + Int.fdiv doe 36524 - Int.fdiv doe 146096) 365
  let y := yoe + era * 400
  let doy := doe - (365 * yoe + Int.fdiv yoe 4 - Int.fdiv yoe 100)
  let mp := Int.fdiv (5 * doy + 2) 153
  let d := doy - Int.fdiv (153 * mp + 2) 5 + 1
  let m := mp + (if mp < 10 then 3 else -9)
  (y + (if m ≤ 2 then 1 else 0), m, d)

/-- `datetime.utcfromtimestamp(n).isoformat()` for whole seconds. -/
def isoFromEpoch (n : Int) : String :=
  let days := Int.fdiv n 86400
  let secs := (Int.emod n 86400).toNat
  let (y, m, d) := civilFromDays days
  padNat 4 y.toNat ++ "-" ++ padNat 2 m.toNat ++ "-" ++ padNat 2 d.toNat ++ "T" ++
    padNat 2 (secs / 3600) ++ ":" ++ padNat 2 (secs % 3600 / 60) ++ ":" ++ padNat 2 (secs % 60)

/-- Number of days in a month (for `fromisoformat` validation). -/
def daysInMonth (y m : Int) : Int :=
  if m = 2 then
    if Int.emod y 4 = 0 ∧ (Int.emod y 100 ≠ 0 ∨ Int.emod y 400 = 0) then 29 else 28
  else if m = 4 ∨ m = 6 ∨ m = 9 ∨ m = 11 then 30
  else 31

/-- Read exactly `n` decimal digits. -/
def parseFixedNat (cs : List Char) (n : Nat) : Option (Nat × List Char) :=
  let ds := cs.take n
  if ds.length = n ∧ ds.all isAsciiDigit then
    some (ds.foldl (fun a c => a * 10 + (c.toNat - 48)) 0, cs.drop n)
  else Option.none

/-- Parse the `HH[:MM[:SS[.ffffff]]]` part of an ISO time; returns
microseconds from midnight (a `datetime` time is an exact whole number of
microseconds, so integer microseconds represent it without loss). -/
def parseIsoTime (cs : List Char) : Option (Int × List Char) := do
  let (h, rest) ← parseFixedNat cs 2
  if 24 ≤ h then failure
  let (mi, rest) ←
    match rest with
    | ':' :: more => do
        let (mi, rest') ← parseFixedNat more 2
        pure (mi, rest')
    | _ => pure (0, rest)
  if 60 ≤ mi then failure
  let (se, fracMicros, rest) ←
    match rest with
    | ':' :: more => do
        let (se, rest') ← parseFixedNat more 2
        match rest' with
        | '.' :: more' | ',' :: more' =>
            let ds := more'.takeWhile isAsciiDigit
            if ds.length = 0 ∨ 6 < ds.length then failure
            else
              let num : Nat := ds.foldl (fun a c => a * 10 + (c.toNat - 48)) 0
              pure (se, (num * 10 ^ (6 - ds.length) : Nat), more'.drop ds.length)
        | _ => pure (se, (0 : Nat), rest')
    | _ => pure (0, (0 : Nat), rest)
  if 60 ≤ se then failure
  pure (((h * 3600 + mi * 60 + se : Nat) : Int) * 1000000 + (fracMicros : Int), rest)

/-- Parse a UTC-offset suffix `±HH[:MM[:SS]]` (also the compact `±HHMM`);
returns offset seconds. -/
def parseIsoOffset (cs : List Char) : Option Int := do
  let (sign, rest) ←
    match cs with
    | '+' :: r => some ((1 : Int), r)
    | '-' :: r => some ((-1 : Int), r)
    | _ => failure
  let (h, rest) ← parseFixedNat rest 2
  let (mi, rest) ←
    match rest with
    | ':' :: more => parseFixedNat more 2
    | [] => pure (0, ([] : List Char))
    | more => parseFixedNat more 2
  let (se, rest) ←
    match rest with
    | ':' :: more => parseFixedNat more 2
    | _ => pure (0, rest)
  if ¬ rest.isEmpty then failure
  if 60 ≤ mi ∨ 60 ≤ se then failure
  pure (sign * ((h * 3600 + mi * 60 + se : Nat) : Int))

/-- `datetime.fromisoformat` (the dashed-date subset the pipeline emits),
returning UTC epoch **microseconds** — `datetime` instants are exact whole
microseconds, so this integer representation is lossless; naive datetimes
are interpreted as UTC, which is what `parse_ts` does by attaching
`timezone.utc`. -/
def fromIsoFormat (s : String) : Option Int := do
  let cs := s.data
  let (y, rest) ← parseFixedNat cs 4
  let rest ← match rest with | '-' :: r => some r | _ => failure
  let (mo, rest) ← parseFixedNat rest 2
  let rest ← match rest with | '-' :: r => some r | _ => failure
  let (d, rest) ← parseFixedNat rest 2
  if mo < 1 ∨ 12 < mo then failure
  if d < 1 ∨ daysInMonth y mo < (d : Int) then failure
  let base : Int := daysFromCivil y mo d * 86400000000
  match rest with
  | [] => pure base
  | sep :: more =>
      if sep ≠ 'T' ∧ sep ≠ ' ' then failure
      else do
        let (micros, rest') ← parseIsoTime more
        if rest'.isEmpty then pure (base + micros)
        else do
          let off ← parseIsoOffset rest'
          pure (base + micros - off * 1000000)

/-- `utils/time.parse_ts` on a string value: empty fails, otherwise
`fromisoformat(value.replace("Z", "+00:00"))`, `None` on parse failure;
the result is the instant's UTC epoch microseconds (`.timestamp()` scaled
by 10⁶ — exact, where the float seconds of `.timestamp()` may round).
The numeric branch of `parse_ts` does not apply to envelope `ts` fields,
which are strings. -/
def parse_ts (s : String) : Option Int :=
  if s = "" then Option.none
  else fromIsoFormat (pyReplace s "Z" "+00:00")

/-- `routine._format_ts`/`handoff._format_ts` on epoch microseconds: ISO
format with trailing `Z` (microseconds appended only when non-zero). -/
def format_ts (t : Int) : String :=
  let whole : Int := Int.fdiv t 1000000
  let micros : Int := Int.emod t 1000000
  isoFromEpoch whole ++ (if micros = 0 then "" else "." ++ padNat 6 micros.toNat) ++ "Z"

/-! ## Event envelope (`models.py`) -/
/-- `models.ResourceRef`. -/
structure ResourceRef where
  type : String
  id : String
  deriving Repr, DecidableEq

/-- `models.PrivacyMetadata`. -/
structure PrivacyMetadata where
  pii_level : String
  redaction : List String := []
  deriving Repr, DecidableEq

/-- `models.EventEnvelope`. -/
structure EventEnvelope where
  schema_version : String := "1.0"
  event_id : String := ""
  ts : String := ""
  source : String := "unknown"
  app : String := "unknown"
  event_type : String := "unknown"
  priority : String := "P1"
  resource : ResourceRef := ⟨"unknown", "unknown"⟩
  payload : List (String × PVal) := []
  privacy : PrivacyMetadata := ⟨"unknown", []⟩
  pid : Option Int := Option.none
  window_id : Option String := Option.none
  raw : PVal := .dict []
  deriving Repr, DecidableEq

/-- `models.VALID_PRIORITIES`. -/
def VALID_PRIORITIES : List String := ["P0", "P1", "P2"]

/-- Generic first-occurrence association-list lookup. -/
def slookup {α : Type} (k : String) : List (String × α) → Option α
  | [] => Option.none
  | (k', v) :: rest => if k' = k then some v else slookup k rest

/-! ## Masking utilities (`utils/masking.py`, `urllib.parse`) -/
/-- `utils/masking.truncate`: `if not max_len or max_len <= 0` keeps the
value; otherwise clip to `max_len` characters. -/
def truncate (value : String) (maxLen : Int) : String :=
  if maxLen = 0 ∨ maxLen ≤ 0 then value
  else if value.length ≤ maxLen.toNat then value
  else String.mk (value.data.take maxLen.toNat)

/-- `utils/masking.mask_patterns`: each compiled redaction pattern's
`.sub("[REDACTED]", ·)` applied in order (patterns are modelled by their
substitution functions). -/
def mask_patterns (value : String) (patterns : List (String → String)) : String :=
  patterns.foldl (fun acc p => p acc) value

/-- Scheme characters accepted by `urllib.parse` (`A-Za-z0-9+.-`). -/
def isSchemeChar (c : Char) : Bool :=
  isAsciiAlpha c || isAsciiDigit c || c = '+' || c = '-' || c = '.'

/-- `urllib.parse.urlparse(value).netloc`: a leading `scheme:` (first
character a letter, all scheme characters) is stripped; the netloc is
non-empty only when the remainder starts with `//`, and runs to the next
`/`, `?` or `#`. -/
def urlparseNetloc (s : String) : String :=
  let cs := s.data
  let rest :=
    match splitFirstAt ':' cs with
    | some (scheme, r) =>
        match scheme with
        | c0 :: _ => if isAsciiAlpha c0 ∧ scheme.all isSchemeChar then r else cs
        | [] => cs
    | Option.none => cs
  match rest with
  | '/' :: '/' :: after =>
      String.mk (after.takeWhile (fun c => c ≠ '/' ∧ c ≠ '?' ∧ c ≠ '#'))
  | _ => ""

/-- `utils/masking.sanitize_url`. -/
def sanitize_url (value : String) (keepDomainOnly : Bool) : String :=
  if ¬ keepDomainOnly then value
  else
    let netloc := urlparseNetloc value
    if netloc ≠ "" then netloc else value

/-! ## PrivacyGuard (`privacy.py`) -/
/-- `privacy.EMAIL_KEYS`. -/
def EMAIL_KEYS : List String :=
  ["recipients", "recipient", "to", "cc", "bcc", "email", "emails"]

/-- `privacy.PrivacyRules` after `load_privacy_rules` (keys and app names
already lower-cased; `url_policy` reduced to its two recognized boolean
options with their `.get` defaults; each regex in `redaction_patterns`
modelled by its `.sub("[REDACTED]", ·)` function). -/
structure PrivacyRules where
  mask_keys : List String := []
  hash_keys : List String := []
  length_limits : List (String × Int) := []
  url_allow_full_url : Bool := false
  url_keep_domain_only : Bool := true
  redaction_patterns : List (String → String) := []
  drop_payload_keys : List String := []
  allowlist_apps : List String := []
  denylist_apps : List String := []
  denylist_action : String := "drop"

/-- `privacy.PrivacyGuard`: `hashValue` is `_hash_value(·, hash_salt)`
(HMAC-SHA-256 with the configured salt), kept abstract; `url_mode` is the
constructor-normalized `str(url_mode or "rules").lower()`. -/
structure PrivacyGuard where
  rules : PrivacyRules
  hashValue : String → String
  url_mode : String := "rules"

/-- `privacy._dedupe`: drop repeats, keep first-seen order. -/
def dedupeAux (seen : List String) : List String → List String
  | [] => []
  | x :: rest =>
      if seen.contains x then dedupeAux seen rest
      else x :: dedupeAux (x :: seen) rest

/-- `privacy._dedupe`. -/
def dedupe (values : List String) : List String := dedupeAux [] values

/-- `privacy.PrivacyGuard._sanitize_payload_value`, threading the mutable
`redactions` list explicitly. -/
def sanitize_payload_value (g : PrivacyGuard) (key : String) (value : PVal)
    (redactions : List String) : PVal × List String :=
  let keyNorm := pyLower key
  if g.rules.hash_keys.contains keyNorm then
    (.str (g.hashValue (pythonStr value)), redactions ++ ["hash:" ++ keyNorm])
  else
    match value with
    | .str s0 =>
        let (s1, redactions) :=
          if keyNorm = "url" then
            let (allowFull, keepDomain) :=
              if g.url_mode = "full" then (true, false)
              else if g.url_mode = "domain" then (false, true)
              else (g.rules.url_allow_full_url, g.rules.url_keep_domain_only)
            if ¬ allowFull then
              (sanitize_url s0 keepDomain, redactions ++ ["url_sanitized"])
            else (s0, redactions)
          else (s0, redactions)
        let (s2, redactions) :=
          if g.rules.mask_keys.contains keyNorm then
            (mask_patterns s1 g.rules.redaction_patterns, redactions ++ ["mask:" ++ keyNorm])
          else (s1, redactions)
        let s3 :=
          match slookup keyNorm g.rules.length_limits with
          | some maxLen => if maxLen ≠ 0 then truncate s2 maxLen else s2
          | Option.none => s2
        (.str s3, redactions)
    | v => (v, redactions)

/-- One step of the `apply` payload loop (`for key, value in
envelope.payload.items()`), accumulating the sanitized dict and the
redaction tags. -/
def applyPayloadStep (g : PrivacyGuard) (acc : List (String × PVal) × List String)
    (kv : String × PVal) : List (String × PVal) × List String :=
  let (key, value) := kv
  let keyNorm := pyLower key
  if g.rules.drop_payload_keys.contains keyNorm then
    (acc.1, acc.2 ++ ["drop:" ++ keyNorm])
  else if EMAIL_KEYS.contains keyNorm then
    (acc.1 ++ [(key, summarize_recipients value)],
     acc.2 ++ ["recipients_summarized:" ++ keyNorm])
  else
    let (v, reds) := sanitize_payload_value g key value acc.2
    (acc.1 ++ [(key, v)], reds)

/-- `privacy.PrivacyGuard.apply`. -/
def privacyApply (g : PrivacyGuard) (envelope : EventEnvelope) : Option EventEnvelope :=
  let appKey := pyLower envelope.app
  if g.rules.allowlist_apps ≠ [] ∧ ¬ g.rules.allowlist_apps.contains appKey then
    Option.none
  else if g.rules.denylist_apps ≠ [] ∧ g.rules.denylist_apps.contains appKey then
    if g.rules.denylist_action = "strip" then
      some { envelope with
        payload := [],
        privacy := { envelope.privacy with
          redaction := dedupe (envelope.privacy.redaction ++ ["denylist_stripped"]) } }
    else Option.none
  else
    let redactions := envelope.privacy.redaction
    let (windowId, redactions) :=
      match envelope.window_id with
      | some w =>
          if w ≠ "" then (some (g.hashValue w), redactions ++ ["window_id_hashed"])
          else (envelope.window_id, redactions)
      | Option.none => (envelope.window_id, redactions)
    let (resource, redactions) :=
      if envelope.resource.id ≠ "" ∧ envelope.resource.id ≠ "unknown" then
        (ResourceRef.mk envelope.resource.type (g.hashValue envelope.resource.id),
         redactions ++ ["resource_id_hashed"])
      else (envelope.resource, redactions)
    let (sanitized, redactions) :=
      envelope.payload.foldl (applyPayloadStep g) ([], redactions)
    some { envelope with
      window_id := windowId,
      resource := resource,
      payload := sanitized,
      privacy := PrivacyMetadata.mk envelope.privacy.pii_level (dedupe redactions) }

/-! ## PriorityProcessor (`priority.py`) -/
/-- `priority.P0_EVENT_TYPES` (already lowercase in the source). -/
def P0_EVENT_TYPES : List String :=
  ["outlook.send_clicked", "excel.export_pdf", "excel.export_csv", "excel.save_as",
   "os.file_saved", "excel.refresh_pivot", "upload_done", "share_link_created"]

/-- `priority.P1_EVENT_TYPES`. -/
def P1_EVENT_TYPES : List String :=
  ["os.app_focus_block", "os.file_opened", "excel.workbook_opened",
   "outlook.compose_started", "outlook.attachment_added_meta"]

/-- `priority.P2_EVENT_TYPES`. -/
def P2_EVENT_TYPES : List String :=
  ["os.foreground_changed", "os.window_title_changed", "os.clipboard_meta"]

/-- `priority.DEBOUNCE_EVENT_TYPES`. -/
def DEBOUNCE_EVENT_TYPES : List String :=
  ["os.foreground_changed", "os.window_title_changed"]

/-- `priority.FocusState` (`ts` in epoch microseconds). -/
structure FocusState where
  envelope : EventEnvelope
  ts : Option Int
  deriving Repr, DecidableEq

/-- `priority.PriorityProcessor` with its `__post_init__`-computed priority
sets.  Instants and the `debounce_seconds` duration are in integer
microseconds (the exact resolution of `datetime`; the float default 2.0 s
is exactly 2 000 000 µs).  `drop_p2_when_queue_over` is a ratio, kept
rational.  Priority sets (`p0Set`/`p1Set`/`p2Set` are `_p0_set`/`_p1_set`/`_p2_set`: the
built-in defaults unioned with the lower-cased configured lists; list
membership plays the role of set membership). -/
structure PriorityProcessor where
  debounce_seconds : Int := 2000000
  focus_event_types : List String := ["os.foreground_changed"]
  focus_block_event_type : String := "os.app_focus_block"
  drop_p2_when_queue_over : ℚ := mkRat 4 5
  p0Set : List String := P0_EVENT_TYPES
  p1Set : List String := P1_EVENT_TYPES
  p2Set : List String := P2_EVENT_TYPES
  last_event_ts : List ((String × String × String) × Int) := []
  focus_state : Option FocusState := Option.none
  deriving Repr, DecidableEq

/-- Build a processor from configured extra lists, as `__post_init__` does. -/
def mkPriorityProcessor (debounce : Int) (focusTypes : List String)
    (focusBlockType : String) (dropP2Over : ℚ)
    (p0Extra p1Extra p2Extra : List String) : PriorityProcessor :=
  { debounce_seconds := debounce
    focus_event_types := focusTypes
    focus_block_event_type := focusBlockType
    drop_p2_when_queue_over := dropP2Over
    p0Set := P0_EVENT_TYPES ++ p0Extra.map pyLower
    p1Set := P1_EVENT_TYPES ++ p1Extra.map pyLower
    p2Set := P2_EVENT_TYPES ++ p2Extra.map pyLower }

/-- `priority._classify_priority`. -/
def classify_priority (eventType current : String)
    (p0 p1 p2 : List String) : String :=
  if p0.contains eventType then "P0"
  else if p1.contains eventType then "P1"
  else if p2.contains eventType then "P2"
  else if VALID_PRIORITIES.contains current then current
  else "P1"

/-- `priority._to_epoch` (via `parse_ts` and `.timestamp()`), in epoch
microseconds. -/
def to_epoch (ts : String) : Option Int := parse_ts ts

/-- A processor step result: the returned envelope list, the updated
processor state, and the `record_drop` reasons emitted during the call. -/
structure ProcessResult where
  outputs : List EventEnvelope
  proc : PriorityProcessor
  drops : List String
  deriving Repr

/-- Generic assoc update used for `_last_event_ts[key] = ts`. -/
def tupUpdate (k : String × String × String) (v : Int) :
    List ((String × String × String) × Int) → List ((String × String × String) × Int)
  | [] => [(k, v)]
  | (k', v') :: rest =>
      if k' = k then (k', v) :: rest else (k', v') :: tupUpdate k v rest

/-- Generic assoc lookup used for `_last_event_ts.get(key)`. -/
def tupLookup (k : String × String × String) :
    List ((String × String × String) × Int) → Option Int
  | [] => Option.none
  | (k', v) :: rest => if k' = k then some v else tupLookup k rest

/-- `priority.PriorityProcessor._should_debounce`, also returning the
updated `_last_event_ts` table. -/
def should_debounce (p : PriorityProcessor) (envelope : EventEnvelope)
    (eventType : String) : Bool × PriorityProcessor :=
  match to_epoch envelope.ts with
  | Option.none => (false, p)
  | some ts =>
      let key := (eventType, envelope.app, envelope.resource.id)
      let last := tupLookup key p.last_event_ts
      let p' := { p with last_event_ts := tupUpdate key ts p.last_event_ts }
      match last with
      | Option.none => (false, p')
      | some lastTs => (ts - lastTs < p.debounce_seconds, p')

/-- `priority.PriorityProcessor._emit_focus_block` (the fresh
`uuid.uuid4()` is the `freshEventId` parameter). -/
def emit_focus_block (p : PriorityProcessor) (ts : Int) (freshEventId : String) :
    List EventEnvelope :=
  match p.focus_state with
  | Option.none => []
  | some prev =>
      match prev.ts with
      | Option.none => []
      | some prevTs =>
          let duration : Int := max 0 (ts - prevTs)
          if duration < p.debounce_seconds then []
          else
            let payload := aset "duration_sec"
              (PVal.int (Int.fdiv duration 1000000)) prev.envelope.payload
            [{ schema_version := prev.envelope.schema_version
               event_id := freshEventId
               ts := prev.envelope.ts
               source := prev.envelope.source
               app := prev.envelope.app
               event_type := p.focus_block_event_type
               priority := classify_priority p.focus_block_event_type "P1" p.p0Set p.p1Set p.p2Set
               resource := ResourceRef.mk prev.envelope.resource.type prev.envelope.resource.id
               payload := payload
               privacy := PrivacyMetadata.mk prev.envelope.privacy.pii_level
                 prev.envelope.privacy.redaction
               pid := prev.envelope.pid
               window_id := prev.envelope.window_id
               raw := prev.envelope.raw }]

/-- `priority.PriorityProcessor._handle_focus_event`. -/
def handle_focus_event (p : PriorityProcessor) (envelope : EventEnvelope)
    (freshEventId : String) : ProcessResult :=
  let ts := to_epoch envelope.ts
  let emitted :=
    match p.focus_state, ts with
    | some _, some t => emit_focus_block p t freshEventId
    | _, _ => []
  { outputs := emitted
    proc := { p with focus_state := some (FocusState.mk envelope ts) }
    drops := [] }

/-- `priority.PriorityProcessor.process`.  The mutation of
`envelope.priority` is modelled by rebinding; `record_drop` calls are
collected in `drops`. -/
def process (p : PriorityProcessor) (envelope : EventEnvelope) (queueRatio : ℚ)
    (freshEventId : String) : ProcessResult :=
  let eventType := pyLower envelope.event_type
  let env := { envelope with
    priority := classify_priority eventType envelope.priority p.p0Set p.p1Set p.p2Set }
  if env.priority = "P2" ∧ p.drop_p2_when_queue_over ≤ queueRatio then
    { outputs := [], proc := p, drops := ["queue_overflow"] }
  else if (p.focus_event_types.map pyLower).contains eventType then
    handle_focus_event p env freshEventId
  else if DEBOUNCE_EVENT_TYPES.contains eventType then
    let (deb, p') := should_debounce p env eventType
    if deb then { outputs := [], proc := p', drops := ["debounce"] }
    else { outputs := [env], proc := p', drops := [] }
  else
    { outputs := [env], proc := p, drops := [] }

/-- `priority.PriorityProcessor.flush` (`utc_now().timestamp()` passed in). -/
def processorFlush (p : PriorityProcessor) (now : Int) (freshEventId : String) :
    List EventEnvelope :=
  match p.focus_state with
  | Option.none => []
  | some _ => emit_focus_block p now freshEventId

/-! ## Normalizer (`normalize.py`) -/
/-- `models.DEFAULT_SCHEMA_VERSION`. -/
def DEFAULT_SCHEMA_VERSION : String := "1.0"

/-- `normalize.SUPPORTED_MIN_VERSION`. -/
def SUPPORTED_MIN_VERSION : Int × Int := (1, 0)

/-- `normalize.SUPPORTED_MAX_VERSION`. -/
def SUPPORTED_MAX_VERSION : Int × Int := (1, 0)

/-- Tuple (lexicographic) comparison of version pairs. -/
def versionLt (a b : Int × Int) : Bool :=
  a.1 < b.1 ∨ (a.1 = b.1 ∧ a.2 < b.2)

/-- `normalize._parse_version`: split at the first dot (failing when there
is none, as tuple unpacking does) and parse both halves with `int`. -/
def parse_version (value : String) : Option (Int × Int) := do
  let (majorStr, minorStr) ← splitFirstAt '.' value.data
  let major ← pyParseInt (String.mk majorStr)
  let minor ← pyParseInt (String.mk minorStr)
  pure (major, minor)

/-- ASCII hex digit. -/
def isHexDigit (c : Char) : Bool :=
  isAsciiDigit c || ('a' ≤ c && c ≤ 'f') || ('A' ≤ c && c ≤ 'F')

/-- Curly brace characters stripped by `uuid.UUID`. -/
def isBrace (c : Char) : Bool := c = Char.ofNat 0x7b || c = Char.ofNat 0x7d

/-- `uuid.UUID(value)` validation as CPython performs it: drop `urn:` and
`uuid:` fragments, strip surrounding braces, drop hyphens, require exactly
32 hex digits. -/
def pyUuidValid (s : String) : Bool :=
  let cs := replaceAllChars "uuid:".data [] (replaceAllChars "urn:".data [] s.data)
  let cs := ((cs.dropWhile isBrace).reverse.dropWhile isBrace).reverse
  let cs := cs.filter (fun c => c ≠ '-')
  cs.length = 32 ∧ cs.all isHexDigit

/-- `normalize._normalize_ts` (`_utc_now()` is the `nowIso` parameter;
recall `bool` is an `int` in Python, hence the epoch branches). -/
def normalize_ts (value : PVal) (allowMissing : Bool) (level : String)
    (nowIso : String) : Except String String :=
  if value = .none ∨ value = .str "" then
    if allowMissing then .ok nowIso else .error "missing ts"
  else
    match value with
    | .str s => .ok s
    | v =>
        if level = "strict" then .error "invalid ts"
        else
          match v with
          | .int n => .ok (isoFromEpoch n ++ "Z")
          | .bool b => .ok (isoFromEpoch (if b then 1 else 0) ++ "Z")
          | _ => .ok nowIso

/-- `normalize._normalize_event_id` (`uuid.uuid4()` is `freshUuid`). -/
def normalize_event_id (value : PVal) (allowMissing : Bool) (level : String)
    (freshUuid : String) : Except String String :=
  if ¬ pvalTruthy value then
    if allowMissing then .ok freshUuid else .error "missing event_id"
  else
    let eventId := pythonStr value
    if level = "strict" ∧ ¬ pyUuidValid eventId then .error "invalid event_id"
    else .ok eventId

/-- `normalize._normalize_required_str`. -/
def normalize_required_str (value : PVal) (name : String) (allowMissing : Bool) :
    Except String String :=
  if value = .none ∨ value = .str "" then
    if allowMissing then .ok "unknown" else .error ("missing " ++ name)
  else .ok (pythonStr value)

/-- `normalize._normalize_priority`. -/
def normalize_priority (value : PVal) (allowMissing : Bool) : Except String String :=
  if ¬ pvalTruthy value then
    if allowMissing then .ok "P1" else .error "missing priority"
  else
    match value with
    | .str s =>
        if VALID_PRIORITIES.contains s then .ok s
        else if allowMissing then .ok "P1"
        else .error "invalid priority"
    | _ => if allowMissing then .ok "P1" else .error "invalid priority"

/-- `normalize._normalize_payload`. -/
def normalize_payload (value : PVal) (allowMissing : Bool) (level : String) :
    Except String (List (String × PVal)) :=
  match value with
  | .none => if allowMissing then .ok [] else .error "missing payload"
  | .dict items => .ok items
  | _ =>
      if level = "strict" ∧ ¬ allowMissing then .error "payload must be an object"
      else .ok []

/-- `normalize._normalize_resource`. -/
def normalize_resource (value : PVal) (allowMissing : Bool) :
    Except String ResourceRef :=
  match value with
  | .dict items =>
      let rType := dget items "type"
      let rId := dget items "id"
      if (rType = .none ∨ rType = .str "") ∨ (rId = .none ∨ rId = .str "") then
        if allowMissing then .ok (ResourceRef.mk "unknown" "unknown")
        else .error "invalid resource"
      else .ok (ResourceRef.mk (pythonStr rType) (pythonStr rId))
  | _ =>
      if allowMissing then .ok (ResourceRef.mk "unknown" "unknown")
      else .error "missing resource"

/-- `normalize._normalize_privacy`. -/
def normalize_privacy (value : PVal) (allowMissing : Bool) (level : String) :
    Except String PrivacyMetadata :=
  match value with
  | .dict items => do
      let pii0 := dget items "pii_level"
      let pii ←
        if ¬ pvalTruthy pii0 then
          if allowMissing then pure (PVal.str "unknown")
          else Except.error "missing privacy.pii_level"
        else pure pii0
      let redList ←
        match dget items "redaction" with
        | .none =>
            if level = "strict" ∧ ¬ allowMissing then
              Except.error "missing privacy.redaction"
            else pure ([] : List String)
        | .list xs => pure (xs.map pythonStr)
        | _ =>
            if level = "strict" ∧ ¬ allowMissing then
              Except.error "invalid privacy.redaction"
            else pure ([] : List String)
      pure (PrivacyMetadata.mk (pythonStr pii) redList)
  | _ =>
      if allowMissing then .ok (PrivacyMetadata.mk "unknown" [])
      else .error "missing privacy"

/-- `normalize._normalize_pid` (`int(value)` succeeding on ints, bools and
integral strings; `None` on failure). -/
def normalize_pid (value : PVal) : Option Int :=
  match value with
  | .int n => some n
  | .bool b => some (if b then 1 else 0)
  | .str s => pyParseInt s
  | _ => Option.none

/-- `normalize._normalize_window_id`. -/
def normalize_window_id (value : PVal) : Option String :=
  match value with
  | .none => Option.none
  | .int n => some (toString n)
  | .bool b => some (if b then "1" else "0")
  | .str s => if s ≠ "" then some s else Option.none
  | _ => Option.none

/-- `normalize._ensure_required_fields_present` (key presence). -/
def ensure_required_fields (items : List (String × PVal)) : Except String Unit :=
  let required := ["schema_version", "event_id", "ts", "source", "app",
    "event_type", "priority", "resource", "payload", "privacy"]
  if required.filter (fun k => ¬ dhasKey items k) ≠ [] then
    .error "missing required fields"
  else .ok ()

/-- `normalize.normalize_event` (the ambient `_utc_now()` and
`uuid.uuid4()` are the `nowIso` and `freshUuid` parameters). -/
def normalize_event (raw : PVal) (validationLevel : String)
    (nowIso freshUuid : String) : Except String EventEnvelope :=
  match raw with
  | .dict items => do
      let level := pyLower (pyStrip validationLevel)
      if level ≠ "lenient" ∧ level ≠ "strict" then
        Except.error "unknown validation level"
      else do
        let sv0 := dget items "schema_version"
        let schemaVersion0 := if pvalTruthy sv0 then pythonStr sv0 else DEFAULT_SCHEMA_VERSION
        let (schemaVersion, version) ←
          match parse_version schemaVersion0 with
          | some v => pure (schemaVersion0, some v)
          | Option.none =>
              if level = "strict" then Except.error "invalid schema_version"
              else pure (DEFAULT_SCHEMA_VERSION, parse_version DEFAULT_SCHEMA_VERSION)
        let compatBack :=
          match version with
          | some v => versionLt v SUPPORTED_MIN_VERSION
          | Option.none => false
        let compatForward :=
          match version with
          | some v => versionLt SUPPORTED_MAX_VERSION v
          | Option.none => false
        let allowMissing := (level = "lenient" : Bool) || compatBack
        let eventId ← normalize_event_id (dget items "event_id") allowMissing level freshUuid
        let ts ← normalize_ts (dget items "ts") allowMissing level nowIso
        let source ← normalize_required_str (dget items "source") "source" allowMissing
        let app ← normalize_required_str (dget items "app") "app" allowMissing
        let eventType ← normalize_required_str (dget items "event_type") "event_type" allowMissing
        let priority ← normalize_priority (dget items "priority") allowMissing
        let resource ← normalize_resource (dget items "resource") allowMissing
        let payload ← normalize_payload (dget items "payload") allowMissing level
        let privacy ← normalize_privacy (dget items "privacy") allowMissing level
        let pid := normalize_pid (dget items "pid")
        let windowId := normalize_window_id (dget items "window_id")
        if compatForward && (level = "strict" : Bool) then ensure_required_fields items
        else pure ()
        pure { schema_version := schemaVersion
               event_id := eventId
               ts := ts
               source := source
               app := app
               event_type := eventType
               priority := priority
               resource := resource
               payload := payload
               privacy := privacy
               pid := pid
               window_id := windowId
               raw := raw }
  | _ => Except.error "event must be an object"

/-- Modelled from the spec: the §6 wire form of an envelope, i.e. the
dict in which a produced envelope is fed back into `normalize_event` —
the repository's `src/` contains no envelope→dict serializer, so the
claim's `normalize(normalize(x))` composition is expressed through this
spec-side serialization.  The `raw` replay field is not part of the wire
format. -/
def toWire (e : EventEnvelope) : PVal :=
  .dict [("schema_version", .str e.schema_version),
    ("event_id", .str e.event_id),
    ("ts", .str e.ts),
    ("source", .str e.source),
    ("app", .str e.app),
    ("event_type", .str e.event_type),
    ("priority", .str e.priority),
    ("resource", .dict [("type", .str e.resource.type), ("id", .str e.resource.id)]),
    ("payload", .dict e.payload),
    ("privacy", .dict [("pii_level", .str e.privacy.pii_level),
      ("redaction", .list (e.privacy.redaction.map PVal.str))]),
    ("pid", match e.pid with | some n => .int n | Option.none => .none),
    ("window_id", match e.window_id with | some s => .str s | Option.none => .none)]

/-! ## RoutineMiner (`routine.py`)

Datetimes are UTC epoch rationals.  The source computes the bonuses with
the float literals `0.3`/`0.1`; the exact rationals `3/10`/`1/10` are used
here — the substitution cannot change any comparison or ordering the
claims mention, since all quantities involved are far from the float
rounding error.  `hashlib.sha256(...).hexdigest()` is the abstract
`hashPattern` parameter, and `utc_now()` is the `now` parameter.
-/
/-- `routine.RoutineSession` (timestamps already parsed, as in the
dataclass). -/
structure RoutineSession where
  session_id : String
  start_ts : Int
  end_ts : Int
  key_events : List String
  deriving Repr, DecidableEq

/-- `routine.RoutineCandidate`. -/
structure RoutineCandidate where
  pattern_id : String
  pattern_json : String
  support : Int
  confidence : ℚ
  last_seen_ts : String
  evidence_session_ids : List String := []
  deriving Repr, DecidableEq

/-- `routine._PatternStats` (`session_id_set` is the membership view of
`session_ids`; `weekday_counts` is the insertion-ordered `Counter`). -/
structure PatternStats where
  support : Int := 0
  session_ids : List String := []
  last_seen : Option Int := Option.none
  weekday_counts : List (Int × Int) := []
  deriving Repr, DecidableEq

/-- `datetime.weekday()` for a UTC instant in epoch microseconds
(Monday = 0; 1970-01-01 was a Thursday). -/
def weekdayOf (t : Int) : Int := Int.emod (Int.fdiv t 86400000000 + 3) 7

/-- Counter increment `weekday_counts[weekday] += 1`. -/
def bumpWeekday (d : Int) : List (Int × Int) → List (Int × Int)
  | [] => [(d, 1)]
  | (k, n) :: rest => if k = d then (k, n + 1) :: rest else (k, n) :: bumpWeekday d rest

/-- Assoc lookup keyed by pattern. -/
def patLookup (pat : List String) : List (List String × PatternStats) → Option PatternStats
  | [] => Option.none
  | (p, st) :: rest => if p = pat then some st else patLookup pat rest

/-- Assoc update keyed by pattern (key exists). -/
def patUpdate (pat : List String) (st : PatternStats) :
    List (List String × PatternStats) → List (List String × PatternStats)
  | [] => []
  | (p, st') :: rest =>
      if p = pat then (p, st) :: rest else (p, st') :: patUpdate pat st rest

/-- First-occurrence deduplication of the n-gram list (models the Python
`set`; iteration order of a `set` is unspecified, first-occurrence order
is the deterministic choice — no claim depends on it). -/
def dedupPatterns : List (List String) → List (List String) :=
  go []
where
  go (seen : List (List String)) : List (List String) → List (List String)
    | [] => []
    | p :: rest =>
        if seen.contains p then go seen rest else p :: go (p :: seen) rest

/-- `routine._unique_ngrams`. -/
def unique_ngrams (events : List String) (nMin nMax : Nat) : List (List String) :=
  if nMin = 0 ∨ nMax < nMin then []
  else
    let limit := min nMax events.length
    dedupPatterns ((List.range' nMin (limit + 1 - nMin)).flatMap (fun n =>
      (List.range (events.length - n + 1)).map (fun idx => (events.drop idx).take n)))

/-- The per-pattern body of the accumulation loop in
`build_routine_candidates` (`stats.setdefault` appends a fresh entry at
the end; a session contributes at most once per pattern). -/
def statsAddSession (sessionId : String) (weekday : Int) (endTs : Int)
    (stats : List (List String × PatternStats)) (pat : List String) :
    List (List String × PatternStats) :=
  let stats :=
    if (patLookup pat stats).isSome then stats
    else stats ++ [(pat, PatternStats.mk 0 [] Option.none [])]
  let entry := (patLookup pat stats).getD (PatternStats.mk 0 [] Option.none [])
  if entry.session_ids.contains sessionId then stats
  else
    patUpdate pat
      { support := entry.support + 1
        session_ids := entry.session_ids ++ [sessionId]
        last_seen := some (match entry.last_seen with
          | some l => if l < endTs then endTs else l
          | Option.none => endTs)
        weekday_counts := bumpWeekday weekday entry.weekday_counts } stats

/-- The scan phase of `build_routine_candidates`: accumulate pattern
statistics over the sessions. -/
def routineStats (sessions : List RoutineSession) (nMin nMax : Nat) :
    List (List String × PatternStats) :=
  sessions.foldl (fun stats session =>
    if session.key_events.length < nMin then stats
    else
      (unique_ngrams session.key_events nMin nMax).foldl
        (statsAddSession session.session_id (weekdayOf session.start_ts) session.end_ts)
        stats) []

/-- `routine._confidence` (`(now - last_seen).days` is the floor of the
day difference, as `timedelta.days` is).  The bonuses are tenths
(`0.3`/`0.1` in the source), so the product
`support * (1 + recency) * (1 + periodicity)` is formed over the common
denominator 100 in a single `mkRat` — exactly the same rational. -/
def routine_confidence (support : Int) (weekdayCounts : List (Int × Int))
    (lastSeen now : Int) : ℚ :=
  let daysAgo : Int := Int.fdiv (now - lastSeen) 86400000000
  let recencyTenths : Int := if daysAgo ≤ 1 then 3 else if daysAgo ≤ 7 then 1 else 0
  let periodicityTenths : Int := if weekdayCounts.any (fun p => 2 ≤ p.2) then 1 else 0
  mkRat (support * (10 + recencyTenths) * (10 + periodicityTenths)) 100

/-- Descending lexicographic `≤` on `(support, confidence)` keys. -/
def keyLe (a b : Int × ℚ) : Bool := a.1 < b.1 ∨ (a.1 = b.1 ∧ a.2 ≤ b.2)

/-- Stable descending insertion: place `x` before the first element `y`
with `le y x` (Python's stable `sort(key=..., reverse=True)` produces
exactly this arrangement, equal keys keeping their original order). -/
def insertDesc {α : Type} (le : α → α → Bool) (x : α) : List α → List α
  | [] => [x]
  | y :: rest =>
      if le y x then x :: y :: rest
      else y :: insertDesc le x rest

/-- Stable descending sort (`le` compares sort keys). -/
def sortDescBy {α : Type} (le : α → α → Bool) : List α → List α
  | [] => []
  | x :: rest => insertDesc le x (sortDescBy le rest)

/-- The `(support, confidence)` comparison used by the candidate sort. -/
def candLe (a b : RoutineCandidate) : Bool :=
  keyLe (a.support, a.confidence) (b.support, b.confidence)

/-- The candidate built for one surviving stats entry. -/
def mkCandidate (maxEvidence : Int) (now : Int) (hashPattern : String → String)
    (pat : List String) (entry : PatternStats) : RoutineCandidate :=
  let lastSeen := entry.last_seen.getD now
  let patternJson := jsonDumps (.dict [("type", .str "ngram"),
    ("events", .list (pat.map PVal.str)), ("n", .int (pat.length : Int))])
  { pattern_id := hashPattern patternJson
    pattern_json := patternJson
    support := entry.support
    confidence := routine_confidence entry.support entry.weekday_counts lastSeen now
    last_seen_ts := format_ts lastSeen
    evidence_session_ids :=
      if 0 < maxEvidence then
        entry.session_ids.drop (entry.session_ids.length - maxEvidence.toNat)
      else [] }

/-- `routine.build_routine_candidates`. -/
def build_routine_candidates (sessions : List RoutineSession) (nMin nMax : Nat)
    (minSupport maxPatterns maxEvidence : Int) (now : Int)
    (hashPattern : String → String) : List RoutineCandidate :=
  if maxPatterns ≤ 0 then []
  else
    let stats := routineStats sessions nMin nMax
    let candidates := stats.filterMap (fun pe =>
      if pe.2.support < minSupport then Option.none
      else some (mkCandidate maxEvidence now hashPattern pe.1 pe.2))
    (sortDescBy candLe candidates).take maxPatterns.toNat

/-! ## HandoffBuilder (`handoff.py`)

The SQLite store is modelled by its query results: each `fetch_*` method
is a row list (most-recent-first, as the `ORDER BY ... DESC` queries
return them) of which `LIMIT n` takes a prefix.  Text columns that hold
JSON are modelled by their parsed values, so `_safe_json`/`_safe_list`
become the shape guards they are in the source.  `uuid.uuid4()` and
`utc_now()` are the `packageId`/`createdAt`/`now` parameters.
-/
/-- `handoff.DEFAULT_MAX_SIZE_BYTES` (50 KiB). -/
def DEFAULT_MAX_SIZE_BYTES : Int := 50 * 1024

/-- `handoff._safe_json`, returning the dict items. -/
def safe_json (v : PVal) : List (String × PVal) :=
  if ¬ pvalTruthy v then []
  else match v with
    | .dict items => items
    | _ => []

/-- `handoff._safe_list`. -/
def safe_list (v : PVal) : List PVal :=
  if ¬ pvalTruthy v then []
  else match v with
    | .list items => items
    | _ => []

/-- `dict.get(key, default)` (a stored `None` is returned, not the
default — only a missing key falls back). -/
def dgetD (items : List (String × PVal)) (k : String) (d : PVal) : PVal :=
  match alookup k items with
  | some v => v
  | Option.none => d

/-- `HEX64_RE.match(value)`: `^[a-f0-9]{64}$` with `IGNORECASE`
(`$` also matches before one trailing newline). -/
def hex64Match (s : String) : Bool :=
  let cs := s.data
  (cs.length = 64 ∧ cs.all isHexDigit) ∨
  (cs.length = 65 ∧ (cs.take 64).all isHexDigit ∧ cs.getLast? = some '\n')

/-- One-position test for `PATH_RE`: the source pattern (a raw string) is
`([A-Za-z]:\\\\|/Users/|/home/|\\.xlsx|\\.docx|\\.pptx)`, i.e. a drive
letter followed by two literal backslashes, the two Unix home prefixes,
or a literal backslash, any non-newline character, and `xlsx`/`docx`/`pptx`. -/
def pathAltAt (cs : List Char) : Bool :=
  (match cs with
   | c :: ':' :: '\\' :: '\\' :: _ => isAsciiAlpha c
   | _ => false) ||
  "/Users/".data.isPrefixOf cs || "/home/".data.isPrefixOf cs ||
  (match cs with
   | '\\' :: c2 :: rest =>
       c2 ≠ '\n' ∧ ("xlsx".data.isPrefixOf rest || "docx".data.isPrefixOf rest ||
         "pptx".data.isPrefixOf rest)
   | _ => false)

/-- `PATH_RE.search`. -/
def pathSearch : List Char → Bool
  | [] => false
  | c :: rest => pathAltAt (c :: rest) || pathSearch rest

/-- Word character for `\b` (`[A-Za-z0-9_]`). -/
def isWordChar (c : Char) : Bool := isAsciiAlpha c || isAsciiDigit c || c = '_'

/-- `LONG_DIGITS_RE.search`: `\b\d{12,}\b` — a maximal digit run of length
at least 12 whose neighbours are not word characters. -/
def longDigitsGo (prev : Option Char) : List Char → Bool
  | [] => false
  | c :: rest =>
      let run := (c :: rest).takeWhile isAsciiDigit
      let afterOk : Bool :=
        match (c :: rest).drop run.length with
        | [] => true
        | d :: _ => ¬ isWordChar d
      if prev.all (fun p => ¬ isWordChar p) && decide (12 ≤ run.length) && afterOk then true
      else longDigitsGo (some c) rest

/-- `LONG_DIGITS_RE.search`. -/
def longDigitsSearch (cs : List Char) : Bool := longDigitsGo Option.none cs

/-- `handoff._scrub_string`. -/
def scrub_string (s : String) : String :=
  if hex64Match s then s
  else if ¬ (emailFindall s).isEmpty || pathSearch s.data || longDigitsSearch s.data then
    "[REDACTED]"
  else s

mutual

/-- `handoff._scrub_payload`. -/
def scrub_payload : PVal → PVal
  | .dict items => .dict (scrubKVs items)
  | .list items => .list (scrubList items)
  | .str s => .str (scrub_string s)
  | v => v

/-- `_scrub_payload` over dict values. -/
def scrubKVs : List (String × PVal) → List (String × PVal)
  | [] => []
  | (k, v) :: rest => (k, scrub_payload v) :: scrubKVs rest

/-- `_scrub_payload` over list items. -/
def scrubList : List PVal → List PVal
  | [] => []
  | v :: rest => scrub_payload v :: scrubList rest

end

/-- `handoff._payload_size`. -/
def payload_size (payload : PVal) : Nat := (jsonDumps payload).utf8ByteSize

/-- `handoff.HandoffPayload`. -/
structure HandoffPayload where
  payload : PVal
  size_bytes : Int
  deriving Repr, DecidableEq

/-- The store as seen by the handoff builder: the result rows of each
query, most recent first. -/
structure StoreModel where
  events_latest : Option (String × String × String × String × PVal)
  sessions : List (String × String × String × Int × PVal)
  routines : List (String × PVal × Int × PVal × String × PVal)
  privacy_rows : List PVal
  recent_p0 : String → Bool

/-- `LIMIT n` prefix of a result list (a negative SQLite limit means no
limit). -/
def sqlLimit {α : Type} (rows : List α) (limit : Int) : List α :=
  if limit < 0 then rows else rows.take limit.toNat

/-- Python list slicing `xs[:m]` (negative `m` drops from the end). -/
def pySliceTake {α : Type} (xs : List α) (m : Int) : List α :=
  if 0 ≤ m then xs.take m.toNat else xs.take (xs.length - (-m).toNat)

/-- `handoff._sanitize_hint`. -/
def sanitize_hint (value : String) (rules : PrivacyRules) : String :=
  let masked := mask_patterns value rules.redaction_patterns
  let maxLen := (slookup "window_title" rules.length_limits).getD 64
  scrub_string (truncate masked maxLen)

/-- `handoff._device_context`. -/
def device_context (store : StoreModel) (rules : PrivacyRules) : List (String × PVal) :=
  match store.events_latest with
  | Option.none =>
      [("active_app", .none), ("active_window_hint", .none), ("last_event_ts", .none)]
  | some (ts, eventType, _priority, app, payloadJson) =>
      let payload := safe_json payloadJson
      let windowTitle := dget payload "window_title"
      let windowHint : PVal :=
        if pvalTruthy windowTitle then .str (sanitize_hint (pythonStr windowTitle) rules)
        else .none
      [("active_app", .str app), ("active_window_hint", windowHint),
       ("last_event_ts", .str ts), ("last_event_type", .str eventType)]

/-- `handoff._signals`. -/
def handoff_signals (store : StoreModel) (lastEventTs : PVal) (now : Int) :
    List (String × PVal) :=
  let since := format_ts (now - 300000000)
  let p0Recent := store.recent_p0 since
  let idleState : PVal :=
    if pvalTruthy lastEventTs then
      match store.events_latest with
      | some (_, eventType, _, _, _) =>
          let et := pyLower eventType
          if et = "os.idle_start" then .bool true
          else if et = "os.idle_end" then .bool false
          else .none
      | Option.none => .none
    else .none
  [("p0_recent", .bool p0Recent), ("idle_state", idleState)]

/-- `handoff._redaction_summary` (`Counter.most_common(10)` is the stable
descending-by-count prefix). -/
def redaction_summary (rows : List PVal) : PVal :=
  let acc := rows.foldl (fun (acc : List (String × Int) × Int) pj =>
    match dget (safe_json pj) "redaction" with
    | .list xs => xs.foldl (fun (acc2 : List (String × Int) × Int) item =>
        if pvalTruthy item then (bumpCount (pythonStr item) acc2.1, acc2.2 + 1)
        else acc2) acc
    | _ => acc) ([], 0)
  let top := (sortDescBy (fun (a b : String × Int) => a.2 ≤ b.2) acc.1).take 10
  .dict [("total", .int acc.2),
    ("items", .dict (top.map (fun p => (p.1, PVal.int p.2))))]

/-- `handoff._privacy_state`. -/
def handoff_privacy_state (store : StoreModel) (rules : PrivacyRules)
    (redactionScanLimit : Int) : List (String × PVal) :=
  [("content_collection", .bool false),
   ("denylist_active", .bool (¬ rules.denylist_apps.isEmpty)),
   ("redaction_summary", redaction_summary (sqlLimit store.privacy_rows redactionScanLimit))]

/-- `handoff._recent_sessions`. -/
def handoff_recent_sessions (store : StoreModel) (limit maxResources : Int) :
    List PVal :=
  (sqlLimit store.sessions limit).map (fun row =>
    let (sessionId, startTs, endTs, durationSec, summaryJson) := row
    let summary := safe_json summaryJson
    let resources : PVal :=
      match dgetD summary "resources" (.list []) with
      | .list rs => .list (pySliceTake rs maxResources)
      | _ => .list []
    .dict [("session_id", .str sessionId), ("start_ts", .str startTs),
      ("end_ts", .str endTs), ("duration_sec", .int durationSec),
      ("apps_timeline", dgetD summary "apps_timeline" (.list [])),
      ("key_events", dgetD summary "key_events" (.list [])),
      ("resources", resources),
      ("counts", dgetD summary "counts" (.dict []))])

/-- `handoff._routine_candidates`. -/
def handoff_routine_candidates (store : StoreModel) (limit maxEvidence : Int) :
    List PVal :=
  (sqlLimit store.routines limit).map (fun row =>
    let (patternId, patternJson, support, confidence, lastSeenTs, evidenceJson) := row
    let evidence0 := safe_list evidenceJson
    let evidence := if 0 < maxEvidence then evidence0.take maxEvidence.toNat else evidence0
    .dict [("pattern_id", .str patternId),
      ("pattern", .dict (safe_json patternJson)),
      ("support", .int support),
      ("confidence", confidence),
      ("last_seen_ts", .str lastSeenTs),
      ("evidence_session_ids", .list evidence)])

/-- `handoff._build_handoff_payload`. -/
def build_handoff_payload (store : StoreModel) (rules : PrivacyRules)
    (packageId createdAt : String)
    (sessionsLimit routinesLimit resourcesLimit maxEvidence redactionScanLimit : Int)
    (now : Int) : PVal :=
  let deviceContext := device_context store rules
  let recentSessions := handoff_recent_sessions store sessionsLimit resourcesLimit
  let routineCandidates := handoff_routine_candidates store routinesLimit maxEvidence
  let signals := handoff_signals store (dget deviceContext "last_event_ts") now
  let privacyState := handoff_privacy_state store rules redactionScanLimit
  .dict [("package_id", .str packageId), ("created_at", .str createdAt),
    ("version", .str "1.0"),
    ("device_context", .dict deviceContext),
    ("recent_sessions", .list recentSessions),
    ("routine_candidates", .list routineCandidates),
    ("signals", .dict signals),
    ("privacy_state", .dict privacyState)]

/-- The profile list tried by `build_handoff_with_size_guard`, in order. -/
def handoffProfiles (recentSessions recentRoutines maxResources : Int) :
    List (Int × Int × Int) :=
  [(recentSessions, recentRoutines, maxResources),
   (min 2 recentSessions, recentRoutines, maxResources),
   (1, min 5 recentRoutines, min 5 maxResources),
   (1, min 3 recentRoutines, min 3 maxResources),
   (1, 1, 1)]

/-- The `for` loop of `build_handoff_with_size_guard`: return the first
built-and-scrubbed package that fits, else fall through to the last one
built. -/
def sizeGuardLoop (store : StoreModel) (rules : PrivacyRules)
    (packageId createdAt : String) (maxSizeBytes maxEvidence redactionScanLimit : Int)
    (now : Int) : List (Int × Int × Int) → PVal → Int → HandoffPayload
  | [], lastPayload, lastSize => ⟨lastPayload, lastSize⟩
  | (sl, rl, resl) :: rest, _, _ =>
      let payload := scrub_payload (build_handoff_payload store rules packageId createdAt
        sl rl resl maxEvidence redactionScanLimit now)
      let sizeBytes : Int := payload_size payload
      if sizeBytes ≤ maxSizeBytes then ⟨payload, sizeBytes⟩
      else sizeGuardLoop store rules packageId createdAt maxSizeBytes maxEvidence
        redactionScanLimit now rest payload sizeBytes

/-- `handoff.build_handoff_with_size_guard` (`load_privacy_rules(path)` is
the `rules` argument; the `last_payload or {}` fallback is the loop
accumulator's initial value, never returned since the profile list is
non-empty). -/
def build_handoff_with_size_guard (store : StoreModel) (rules : PrivacyRules)
    (packageId createdAt : String) (maxSizeBytes : Int)
    (recentSessions recentRoutines maxResources maxEvidence redactionScanLimit : Int)
    (now : Int) : HandoffPayload :=
  sizeGuardLoop store rules packageId createdAt maxSizeBytes maxEvidence
    redactionScanLimit now
    (handoffProfiles recentSessions recentRoutines maxResources) (.dict []) 0

/-! ## Activity-detail records (`bus.py`) -/
/-- The suffix loop of `bus._normalize_title`: strip the first matching
suffix, then `strip()`. -/
def stripFirstSuffix (value : String) : List String → String
  | [] => value
  | suf :: rest =>
      if suf.data.isSuffixOf value.data then
        pyStrip (String.mk (value.data.take (value.data.length - suf.data.length)))
      else stripFirstSuffix value rest

/-- `bus._normalize_title`. -/
def normalize_title (app title : String) : String :=
  let appKey := pyLower app
  let value := pyStrip title
  let value :=
    if appKey = "notion.exe" then
      stripFirstSuffix value [" - Notion", " – Notion", " — Notion"]
    else value
  if appKey = "code.exe" then
    stripFirstSuffix value
      [" - Visual Studio Code", " - Visual Studio Code Insiders", " - Code"]
  else value

/-- `bus._build_activity_detail_records` (one tuple per qualifying
`os.app_focus_block` output: `(app, title_hash, title_hint, first_seen_ts,
last_seen_ts, duration)`); `hmacF` is the abstract `hmac_sha256`. -/
def build_activity_detail_records (batch : List EventEnvelope)
    (minDurationSec : Int) (storeHint : Bool) (hashSalt : String)
    (fullTitleApps : List String) (maxTitleLen : Int)
    (hmacF : String → String → String) :
    List (String × String × String × String × String × Int) :=
  batch.filterMap (fun output =>
    if pyLower output.event_type ≠ "os.app_focus_block" then Option.none
    else
      let payload := output.payload
      let title0 := dget payload "window_title"
      let durOpt : Option Int :=
        match dget payload "duration_sec" with
        | .int n => some n
        | .bool b => some (if b then 1 else 0)
        | _ => Option.none
      match durOpt with
      | Option.none => Option.none
      | some duration =>
          if duration < minDurationSec then Option.none
          else
            let app := pyStrip output.app
            if app = "" then Option.none
            else
              let appKey := pyLower app
              let title1 :=
                if fullTitleApps.contains appKey then
                  let rawPayload :=
                    match output.raw with
                    | .dict rawItems =>
                        match dget rawItems "payload" with
                        | .dict p => p
                        | _ => []
                    | _ => []
                  match dget rawPayload "window_title" with
                  | .str rt => if pyStrip rt ≠ "" then PVal.str rt else title0
                  | _ => title0
                else title0
              match title1 with
              | .str t =>
                  if pyStrip t = "" then Option.none
                  else
                    let titleClean := normalize_title app (pyStrip t)
                    let titleHash := hmacF titleClean
                      (if hashSalt = "" then "dev-salt" else hashSalt)
                    let titleHint0 := if storeHint then titleClean else ""
                    let titleHint :=
                      if titleHint0 ≠ "" ∧ 0 < maxTitleLen ∧ maxTitleLen < (titleHint0.length : Int) then
                        String.mk (titleHint0.data.take maxTitleLen.toNat)
                      else titleHint0
                    some (app, titleHash, titleHint, output.ts, output.ts, duration)
              | _ => Option.none)

/-! ## Store insert path (`store.py`) -/
/-- A row of the `events` table, in column order. -/
structure EventRow where
  schema_version : String
  event_id : String
  ts : String
  source : String
  app : String
  event_type : String
  priority : String
  resource_type : String
  resource_id : String
  payload_json : String
  privacy_json : String
  pid : Option Int
  window_id : Option String
  raw_json : String
  deriving Repr, DecidableEq

/-- The store state relevant to `insert_events`: the encryption
configuration with its loaded key (`Fernet.encrypt` is the abstract
`encryptText`), and the committed rows of the `events` table. -/
structure StoreState where
  enc_enabled : Bool := false
  encrypt_raw_json : Bool := false
  enc_key : Option String := Option.none
  encryptText : String → String := fun t => t
  events : List EventRow := []

/-- `crypto.wrap_encrypted`. -/
def wrap_encrypted (token : String) : String :=
  "\x7b\"__enc__\":\"" ++ token ++ "\",\"__alg__\":\"fernet\",\"__v__\":1\x7d"

/-- The row construction loop of `insert_events`; raises (`Except.error`)
when encryption is enabled with no key loaded. -/
def buildEventRow (st : StoreState) (envelope : EventEnvelope) : Except String EventRow := do
  let payloadJson := jsonDumps (.dict envelope.payload)
  let privacyJson := jsonDumps (.dict [("pii_level", .str envelope.privacy.pii_level),
    ("redaction", .list (envelope.privacy.redaction.map PVal.str))])
  let rawJson0 := jsonDumps (if pvalTruthy envelope.raw then envelope.raw else .dict [])
  let rawJson ←
    if st.enc_enabled ∧ st.encrypt_raw_json then
      match st.enc_key with
      | Option.none => Except.error "encryption enabled but key missing"
      | some _ => pure (wrap_encrypted (st.encryptText rawJson0))
    else pure rawJson0
  pure { schema_version := envelope.schema_version
         event_id := envelope.event_id
         ts := envelope.ts
         source := envelope.source
         app := envelope.app
         event_type := envelope.event_type
         priority := envelope.priority
         resource_type := envelope.resource.type
         resource_id := envelope.resource.id
         payload_json := payloadJson
         privacy_json := privacyJson
         pid := envelope.pid
         window_id := envelope.window_id
         raw_json := rawJson }

/-- What one `executemany + commit` attempt does: commit or raise an
`sqlite3.OperationalError` with the given message (any other exception
kind behaves, for the retry logic, like a non-lock message). -/
inductive AttemptOutcome where
  | success
  | opError (msg : String)
  deriving Repr, DecidableEq

/-- The result of `insert_events`: the `events` table afterwards, the
back-off sleeps performed (seconds), and the propagated exception if any. -/
structure InsertResult where
  events : List EventRow
  sleeps : List ℚ
  error : Option String
  deriving Repr, DecidableEq

/-- Whether an `OperationalError` message is a lock error
(`"database is locked" in str(exc).lower()`). -/
def isLockError (msg : String) : Bool :=
  containsSub (pyLower msg).data "database is locked".data

/-- The `for attempt in range(attempts + 1)` retry loop of
`insert_events`: the whole batch is committed by a single successful
attempt; lock errors sleep `(backoff_ms / 1000) * 2^attempt` and retry
until attempts are exhausted; other errors propagate at once.  The
`outcomes` schedule says what the database does on each attempt. -/
def insertLoop (rows : List EventRow) (events : List EventRow)
    (backoffMs : ℚ) (outcomes : Nat → AttemptOutcome) :
    Nat → Nat → List ℚ → InsertResult
  | remaining, attempt, sleeps =>
    match outcomes attempt with
    | .success => ⟨events ++ rows, sleeps, Option.none⟩
    | .opError msg =>
        if ¬ isLockError msg then ⟨events, sleeps, some msg⟩
        else
          match remaining with
          | 0 => ⟨events, sleeps, some msg⟩
          | r + 1 =>
              insertLoop rows events backoffMs outcomes r (attempt + 1)
                (sleeps ++ [backoffMs / 1000 * 2 ^ attempt])

/-- `store.SQLiteStore.insert_events`. -/
def insert_events (st : StoreState) (envelopes : List EventEnvelope)
    (retryAttempts retryBackoffMs : Int) (outcomes : Nat → AttemptOutcome) :
    InsertResult :=
  if envelopes.isEmpty then ⟨st.events, [], Option.none⟩
  else
    match envelopes.mapM (buildEventRow st) with
    | .error msg => ⟨st.events, [], some msg⟩
    | .ok rows =>
        insertLoop rows st.events ((max 0 retryBackoffMs : Int) : ℚ) outcomes
          (max 0 retryAttempts).toNat 0 []

/-- Concrete previous foreground envelope for the C1 witness
(scenario 1 of the spec: app `A` focused at `T+0`). -/
def c1PrevEnv : EventEnvelope :=
  { app := "A", event_type := "os.foreground_changed", ts := "1970-01-01T00:00:00Z",
    priority := "P2", resource := ResourceRef.mk "window" "w1",
    window_id := some "w1", payload := [("window_title", .str "Doc")] }

/-- Default-configured processor holding `c1PrevEnv` as focus state. -/
def c1Proc : PriorityProcessor :=
  { mkPriorityProcessor 2000000 ["os.foreground_changed"] "os.app_focus_block" (mkRat 4 5)
      [] [] [] with
    focus_state := some (FocusState.mk c1PrevEnv (some 0)) }

/-- Concrete incoming foreground envelope at `T+3 s` for the C1 witness. -/
def c1NewEnv : EventEnvelope :=
  { app := "B", event_type := "os.foreground_changed", ts := "1970-01-01T00:00:03Z",
    priority := "P2", resource := ResourceRef.mk "window" "w2", window_id := some "w2" }

/-! ## Claim C2 — debouncing -/
/-- Default-configured processor for the C2 counterexample. -/
def c2Proc0 : PriorityProcessor :=
  mkPriorityProcessor 2000000 ["os.foreground_changed"] "os.app_focus_block" (mkRat 4 5)
    [] [] []

/-- First foreground envelope of the C2 counterexample pair. -/
def c2EnvA : EventEnvelope :=
  { app := "A", event_type := "os.foreground_changed", ts := "1970-01-01T00:00:00Z",
    priority := "P2", resource := ResourceRef.mk "window" "w", window_id := some "w" }

/-- Second foreground envelope, same `(event_type, app, resource_id)` key,
arriving 1 s (< `debounce_seconds` = 2 s) later. -/
def c2EnvB : EventEnvelope :=
  { app := "A", event_type := "os.foreground_changed", ts := "1970-01-01T00:00:01Z",
    priority := "P2", resource := ResourceRef.mk "window" "w", window_id := some "w" }

/-- Result of processing the first envelope. -/
def c2Run1 : ProcessResult := process c2Proc0 c2EnvA 0 "uuid-1"

/-- Result of processing the second envelope against the updated state. -/
def c2Run2 : ProcessResult := process c2Run1.proc c2EnvB 0 "uuid-2"

/-- Title-flapping envelope for the C2 witness (scenario 2 of the spec). -/
def c2TitleEnvB : EventEnvelope :=
  { app := "X", event_type := "os.window_title_changed", ts := "1970-01-01T00:00:01Z",
    priority := "P2", resource := ResourceRef.mk "window" "w" }

/-- Processor that has already seen the same title key at `T+0`. -/
def c2TitleProc : PriorityProcessor :=
  { c2Proc0 with last_event_ts := [(("os.window_title_changed", "X", "w"), 0)] }

/-! ## Claim C3 — recipient summarization -/
mutual

/-- No string anywhere in the value — dict keys included — contains an
`@` character (the claim's "no raw email address is retained", in the
form the spec's own test uses: no `@` remains). -/
def pvalNoAt : PVal → Bool
  | .str s => ¬ s.data.contains '@'
  | .int _ => true
  | .bool _ => true
  | .none => true
  | .list items => pvalListNoAt items
  | .dict items => pvalKVsNoAt items

/-- `pvalNoAt` over list items. -/
def pvalListNoAt : List PVal → Bool
  | [] => true
  | v :: rest => pvalNoAt v && pvalListNoAt rest

/-- `pvalNoAt` over dict entries. -/
def pvalKVsNoAt : List (String × PVal) → Bool
  | [] => true
  | (k, v) :: rest => (¬ k.data.contains '@') && pvalNoAt v && pvalKVsNoAt rest

end

/-- Concrete guard for exercising the recipient-summarization theorem. -/
def c3Guard : PrivacyGuard :=
  { rules := {}, hashValue := fun s => "H[" ++ s ++ "]" }

/-- Concrete envelope carrying three raw recipient addresses. -/
def c3Env : EventEnvelope :=
  { app := "outlook",
    event_type := "outlook.send_clicked",
    payload := [("recipients",
      PVal.list [PVal.str "a@x.com", PVal.str "b@x.com", PVal.str "c@y.com"])] }

/-! ## C4: PrivacyGuard idempotence -/
/-- A payload key the sanitizer passes through untouched: not dropped,
not an e-mail key, not hashed, not the URL key, not masked, and with no
length limit configured. -/
def payloadKeyInert (g : PrivacyGuard) (k : String) : Bool :=
  !(g.rules.drop_payload_keys.contains (pyLower k)) &&
  !(EMAIL_KEYS.contains (pyLower k)) &&
  !(g.rules.hash_keys.contains (pyLower k)) &&
  !(pyLower k == "url") &&
  !(g.rules.mask_keys.contains (pyLower k)) &&
  (slookup (pyLower k) g.rules.length_limits).isNone

/-- Concrete guard for the idempotence analysis (abstract HMAC made
visible as a tagging function). -/
def c4Guard : PrivacyGuard :=
  { rules := {}, hashValue := fun s => "H[" ++ s ++ "]" }

/-- Envelope with a window id and raw recipients: both change again on a
second pass through the guard. -/
def c4Env : EventEnvelope :=
  { app := "outlook",
    window_id := some "win-1",
    payload := [("recipients", PVal.list [PVal.str "a@x.com", PVal.str "b@x.com"])] }

/-- Envelope satisfying the amended idempotence hypotheses, with a
repeated redaction tag so the single deduplication is visible. -/
def c4AmendEnv : EventEnvelope :=
  { app := "excel",
    event_type := "excel.save_as",
    payload := [("sheet", PVal.str "Q1"), ("rows", PVal.int 42)],
    privacy := ⟨"low", ["mask:title", "mask:title"]⟩ }

/-- Abstract HMAC used in the activity-detail examples. -/
def c5Hmac : String → String → String := fun s _ => "H[" ++ s ++ "]"

/-- A focus-block output from an app that is NOT on the full-title
allowlist. -/
def c5Block : EventEnvelope :=
  { app := "chrome.exe",
    event_type := "os.app_focus_block",
    ts := "2025-01-01T00:00:00+00:00",
    payload := [("window_title", PVal.str "Secret Q3 board deck - Slides"),
                ("duration_sec", PVal.int 30)] }

/-- The record the bus builds from `c5Block` with `max_title_len = 12`:
the hint is clipped to twelve characters. -/
def c5Rec : String × String × String × String × String × Int :=
  ("chrome.exe", "H[Secret Q3 board deck - Slides]", "Secret Q3 bo",
   "2025-01-01T00:00:00+00:00", "2025-01-01T00:00:00+00:00", 30)

/-! ## C6: handoff size guard -/
/-- Spec-side size-guard protocol, from the spec's words: walk the
candidate (payload, size) list in order, return the first whose size is
at most the limit, otherwise the last one. -/
def sizeGuardSpec (maxSizeBytes : Int) : List (PVal × Int) → PVal × Int
  | [] => (.dict [], 0)
  | [c] => c
  | c :: c2 :: rest =>
      if c.2 ≤ maxSizeBytes then c else sizeGuardSpec maxSizeBytes (c2 :: rest)

/-- The built-and-scrubbed candidate a profile produces, with its size. -/
def handoffCandidate (store : StoreModel) (rules : PrivacyRules)
    (packageId createdAt : String) (maxEvidence redactionScanLimit : Int)
    (now : Int) (p : Int × Int × Int) : PVal × Int :=
  let payload := scrub_payload (build_handoff_payload store rules packageId createdAt
    p.1 p.2.1 p.2.2 maxEvidence redactionScanLimit now)
  (payload, payload_size payload)

/-! ## C7: routine scoring -/
/-- Following the claim's words: the recency bonus read off the exact
elapsed time — 0.3 if last seen within 1 day of now, 0.1 if within
7 days, else 0 — with the rest of the formula unchanged. -/
def claimConfidenceSpec (support : Int) (weekdayCounts : List (Int × Int))
    (lastSeen now : Int) : ℚ :=
  let elapsed : Int := now - lastSeen
  let recencyTenths : Int :=
    if elapsed ≤ 86400000000 then 3 else if elapsed ≤ 7 * 86400000000 then 1 else 0
  let periodicityTenths : Int :=
    if weekdayCounts.any (fun p => 2 ≤ p.2) then 1 else 0
  mkRat (support * (10 + recencyTenths) * (10 + periodicityTenths)) 100

/-- Instant "now" of the scoring counterexample (day 13.0). -/
def c7Now : Int := 13 * 86400000000

/-- Last-seen instant 1.5 days before `c7Now` (day 11.5). -/
def c7LastSeen : Int := 11 * 86400000000 + 43200000000

/-- Two sessions sharing the 1-gram `email_send`, the later one ending
1.5 days before now, on different weekdays. -/
def c7Sessions : List RoutineSession :=
  [⟨"s1", 5 * 86400000000, 5 * 86400000000, ["email_send"]⟩,
   ⟨"s2", 11 * 86400000000, c7LastSeen, ["email_send"]⟩]

/-- A minimal lenient input: everything except the event type is filled
in by the normalizer. -/
def c8Raw : PVal := .dict [("event_type", .str "excel.save_as")]

/-- The clock used by the round-trip example. -/
def c8Now : String := "2025-01-01T00:00:00+00:00"

/-- The fresh uuid used by the round-trip example. -/
def c8Uuid : String := "123e4567-e89b-12d3-a456-426614174000"

/-- The envelope the round-trip example produces on first normalization. -/
def c8E1 : EventEnvelope :=
  { schema_version := "1.0",
    event_id := c8Uuid,
    ts := c8Now,
    source := "unknown",
    app := "unknown",
    event_type := "excel.save_as",
    priority := "P1",
    resource := ⟨"unknown", "unknown"⟩,
    payload := [],
    privacy := ⟨"unknown", []⟩,
    pid := Option.none,
    window_id := Option.none,
    raw := c8Raw }

/-! ## Theorems -/

/-! ## Shared lemmas -/
/-- Dict assignment stores the value under the key. -/
theorem alookup_aset (k : String) (v : PVal) (l : List (String × PVal)) :
    alookup k (aset k v l) = some v := by
  induction l with
  | nil => simp [aset, alookup]
  | cons kv rest ih =>
      obtain ⟨k', v'⟩ := kv
      by_cases h : k' = k
      · simp [aset, alookup, h]
      · simp [aset, alookup, h, ih]

/-- `dedupe` keeps exactly the already-present values when re-run
(auxiliary form). -/
theorem dedupeAux_idem (seen : List String) (l : List String) :
    dedupeAux seen (dedupeAux seen l) = dedupeAux seen l := by
  induction l generalizing seen with
  | nil => simp [dedupeAux]
  | cons x rest ih =>
      by_cases h : x ∈ seen
      · simp [dedupeAux, h, ih]
      · simp [dedupeAux, h, ih]

/-- `_dedupe` is idempotent. -/
theorem dedupe_idem (l : List String) : dedupe (dedupe l) = dedupe l := by
  simpa [dedupe] using dedupeAux_idem [] l

/-- `truncate` is idempotent. -/
theorem truncate_idem (s : String) (m : Int) :
    truncate (truncate s m) m = truncate s m := by
  by_cases h0 : m = 0 ∨ m ≤ 0
  · simp [truncate, h0]
  · by_cases hle : s.length ≤ m.toNat
    · simp [truncate, h0, hle]
    · have hlen : (String.mk (s.data.take m.toNat)).length ≤ m.toNat := by
        show (s.data.take m.toNat).length ≤ m.toNat
        exact List.length_take_le _ _
      simp [truncate, h0, hle, hlen]

/-! ## Claim C1 — focus-block synthesis -/
/-- C1.  Focus-block synthesis: when `process` receives a
foreground-change envelope `E` (its lowered event type is in the focus
set) while holding a `focus_state` whose timestamp parsed to `t0`, and
`E`'s own timestamp parses to `t1` (epoch microseconds), then — away from
the P2 queue-pressure drop and with the default focus-block event type
and priority sets (`os.app_focus_block` classified P1), and a positive
debounce window — if the elapsed duration `t1 - t0` is at least
`debounce_seconds`, `process` returns exactly one synthetic envelope with
`event_type = focus_block_event_type`, priority `P1`,
`payload["duration_sec"] = ⌊duration in seconds⌋`, carrying the previous
envelope's `app`, `window_id`, `resource` and privacy redaction tags; if
the duration is below `debounce_seconds` no block is returned; in both
cases `focus_state` is replaced by `E` (with its classified priority). -/
theorem c1_focus_block_synthesis
    (p : PriorityProcessor) (E prevEnv : EventEnvelope) (t0 t1 : Int)
    (queueRatio : ℚ) (freshId : String)
    (hfocus : (p.focus_event_types.map pyLower).contains (pyLower E.event_type) = true)
    (hstate : p.focus_state = some (FocusState.mk prevEnv (some t0)))
    (hts : parse_ts E.ts = some t1)
    (hq : queueRatio < p.drop_p2_when_queue_over)
    (hdeb : 0 < p.debounce_seconds)
    (hfbt : p.focus_block_event_type = "os.app_focus_block")
    (hp0 : p.p0Set.contains "os.app_focus_block" = false)
    (hp1 : p.p1Set.contains "os.app_focus_block" = true) :
    (process p E queueRatio freshId).proc.focus_state =
      some (FocusState.mk
        { E with priority :=
            (classify_priority (pyLower E.event_type) E.priority p.p0Set p.p1Set p.p2Set) }
        (some t1)) ∧
    (p.debounce_seconds ≤ t1 - t0 →
      ∃ b, (process p E queueRatio freshId).outputs = [b] ∧
        b.event_type = p.focus_block_event_type ∧
        b.priority = "P1" ∧
        alookup "duration_sec" b.payload =
          some (.int ⌊((t1 - t0 : ℤ) : ℚ) / 1000000⌋) ∧
        b.app = prevEnv.app ∧
        b.window_id = prevEnv.window_id ∧
        b.resource = prevEnv.resource ∧
        b.privacy.redaction = prevEnv.privacy.redaction ∧
        b.event_id = freshId) ∧
    (t1 - t0 < p.debounce_seconds →
      (process p E queueRatio freshId).outputs = []) := by
  have hnotp2 :
      ¬ (({ E with priority :=
          classify_priority (pyLower E.event_type) E.priority p.p0Set p.p1Set p.p2Set
        : EventEnvelope}).priority = "P2" ∧ p.drop_p2_when_queue_over ≤ queueRatio) := by
    rintro ⟨-, hle⟩
    exact absurd hq (not_lt.mpr hle)
  have hts' : to_epoch E.ts = some t1 := hts
  have hres : process p E queueRatio freshId =
      { outputs := emit_focus_block p t1 freshId
        proc := { p with focus_state := some (FocusState.mk
          { E with priority :=
              (classify_priority (pyLower E.event_type) E.priority p.p0Set p.p1Set p.p2Set) }
          (some t1)) }
        drops := [] } := by
    unfold process handle_focus_event
    simp only [if_neg hnotp2, hfocus, if_true, hts', hstate]
  constructor
  · rw [hres]
  constructor
  · intro hge
    have hpos : 0 < t1 - t0 := lt_of_lt_of_le hdeb hge
    have hmax : max 0 (t1 - t0) = t1 - t0 := max_eq_right (le_of_lt hpos)
    have hnotlt : ¬ (max 0 (t1 - t0) < p.debounce_seconds) := by
      rw [hmax]; exact not_lt.mpr hge
    have hfloor : Int.fdiv (max 0 (t1 - t0)) 1000000 =
        ⌊((t1 - t0 : ℤ) : ℚ) / 1000000⌋ := by
      rw [hmax, Int.fdiv_eq_ediv _ (by norm_num)]
      have h := Rat.floor_intCast_div_natCast (t1 - t0) 1000000
      simpa using h.symm
    have hemit : emit_focus_block p t1 freshId =
        [{ schema_version := prevEnv.schema_version
           event_id := freshId
           ts := prevEnv.ts
           source := prevEnv.source
           app := prevEnv.app
           event_type := p.focus_block_event_type
           priority := classify_priority p.focus_block_event_type "P1" p.p0Set p.p1Set p.p2Set
           resource := ResourceRef.mk prevEnv.resource.type prevEnv.resource.id
           payload := aset "duration_sec"
             (PVal.int (Int.fdiv (max 0 (t1 - t0)) 1000000)) prevEnv.payload
           privacy := PrivacyMetadata.mk prevEnv.privacy.pii_level prevEnv.privacy.redaction
           pid := prevEnv.pid
           window_id := prevEnv.window_id
           raw := prevEnv.raw }] := by
      unfold emit_focus_block
      rw [hstate]
      simp only [if_neg hnotlt]
    simp only [hres, hemit]
    refine ⟨_, rfl, rfl, ?_, ?_, rfl, rfl, rfl, rfl, rfl⟩
    · rw [hfbt]
      unfold classify_priority
      have hp0' : "os.app_focus_block" ∉ p.p0Set := by simpa using hp0
      have hp1' : "os.app_focus_block" ∈ p.p1Set := by simpa using hp1
      simp [hp0', hp1']
    · rw [hfloor]
      exact alookup_aset "duration_sec" _ prevEnv.payload
  · intro hlt
    have hmaxlt : max 0 (t1 - t0) < p.debounce_seconds := max_lt hdeb hlt
    rw [hres]
    unfold emit_focus_block
    rw [hstate]
    simp only [if_pos hmaxlt]

/-- C1 witness: the theorem applied to the spec's focus-block scenario
(`debounce_seconds = 2 s`, transition after 3 s). -/
theorem c1_focus_block_synthesis_witness :
    (process c1Proc c1NewEnv 0 "fresh-uuid").proc.focus_state =
      some (FocusState.mk
        { c1NewEnv with priority :=
            (classify_priority (pyLower c1NewEnv.event_type) c1NewEnv.priority
              c1Proc.p0Set c1Proc.p1Set c1Proc.p2Set) }
        (some 3000000)) ∧
    (c1Proc.debounce_seconds ≤ (3000000 : ℤ) - 0 →
      ∃ b, (process c1Proc c1NewEnv 0 "fresh-uuid").outputs = [b] ∧
        b.event_type = c1Proc.focus_block_event_type ∧
        b.priority = "P1" ∧
        alookup "duration_sec" b.payload =
          some (.int ⌊(((3000000 : ℤ) - 0 : ℤ) : ℚ) / 1000000⌋) ∧
        b.app = c1PrevEnv.app ∧
        b.window_id = c1PrevEnv.window_id ∧
        b.resource = c1PrevEnv.resource ∧
        b.privacy.redaction = c1PrevEnv.privacy.redaction ∧
        b.event_id = "fresh-uuid") ∧
    ((3000000 : ℤ) - 0 < c1Proc.debounce_seconds →
      (process c1Proc c1NewEnv 0 "fresh-uuid").outputs = []) :=
  c1_focus_block_synthesis c1Proc c1NewEnv c1PrevEnv 0 3000000 0 "fresh-uuid"
    (by decide) rfl (by decide) (by decide) (by decide) rfl (by decide) (by decide)

/-! ## Claim C9 — raw foreground envelopes are never forwarded -/
/-- Case analysis of `_emit_focus_block`: it returns nothing or exactly
one freshly-built block envelope. -/
theorem emit_focus_block_cases (p : PriorityProcessor) (t : Int) (fid : String) :
    emit_focus_block p t fid = [] ∨
    ∃ b, emit_focus_block p t fid = [b] ∧
      b.event_type = p.focus_block_event_type ∧ b.event_id = fid := by
  cases hfs : p.focus_state with
  | none => left; simp [emit_focus_block, hfs]
  | some prev =>
      cases hpts : prev.ts with
      | none => left; simp [emit_focus_block, hfs, hpts]
      | some t0 =>
          by_cases hd : max 0 (t - t0) < p.debounce_seconds
          · left; simp [emit_focus_block, hfs, hpts, hd]
          · right
            refine ⟨{ schema_version := prev.envelope.schema_version
                      event_id := fid
                      ts := prev.envelope.ts
                      source := prev.envelope.source
                      app := prev.envelope.app
                      event_type := p.focus_block_event_type
                      priority := (classify_priority p.focus_block_event_type "P1"
                        p.p0Set p.p1Set p.p2Set)
                      resource := ResourceRef.mk prev.envelope.resource.type
                        prev.envelope.resource.id
                      payload := aset "duration_sec"
                        (PVal.int (Int.fdiv (max 0 (t - t0)) 1000000))
                        prev.envelope.payload
                      privacy := PrivacyMetadata.mk prev.envelope.privacy.pii_level
                        prev.envelope.privacy.redaction
                      pid := prev.envelope.pid
                      window_id := prev.envelope.window_id
                      raw := prev.envelope.raw }, ?_, rfl, rfl⟩
            simp [emit_focus_block, hfs, hpts, hd]

/-- C9.  For every envelope whose lowered event type is in the
processor's focus set, `process` never returns the input envelope: its
output is empty or a single synthesized focus-block envelope (carrying
the `focus_block_event_type` and the fresh event id), so raw
foreground-change envelopes are never forwarded to the store —
regardless of debounce timing, and also under queue pressure. -/
theorem c9_focus_events_not_forwarded
    (p : PriorityProcessor) (E : EventEnvelope) (queueRatio : ℚ) (freshId : String)
    (hfocus : (p.focus_event_types.map pyLower).contains (pyLower E.event_type) = true) :
    ((process p E queueRatio freshId).outputs = [] ∨
      ∃ b, (process p E queueRatio freshId).outputs = [b] ∧
        b.event_type = p.focus_block_event_type ∧ b.event_id = freshId) ∧
    (freshId ≠ E.event_id →
      ∀ b ∈ (process p E queueRatio freshId).outputs, b ≠ E) := by
  have hcases : (process p E queueRatio freshId).outputs = [] ∨
      ∃ b, (process p E queueRatio freshId).outputs = [b] ∧
        b.event_type = p.focus_block_event_type ∧ b.event_id = freshId := by
    by_cases hp2 : ({ E with priority :=
        (classify_priority (pyLower E.event_type) E.priority p.p0Set p.p1Set p.p2Set)
      : EventEnvelope}).priority = "P2" ∧ p.drop_p2_when_queue_over ≤ queueRatio
    · left
      unfold process
      simp only [if_pos hp2]
    · have hout : (process p E queueRatio freshId).outputs =
          (match p.focus_state, to_epoch E.ts with
            | some _, some t => emit_focus_block p t freshId
            | _, _ => []) := by
        unfold process handle_focus_event
        simp only [if_neg hp2, hfocus, if_true]
      rw [hout]
      cases hfs : p.focus_state with
      | none => left; rfl
      | some prev =>
          cases hts : to_epoch E.ts with
          | none => left; rfl
          | some t =>
              have := emit_focus_block_cases p t freshId
              simpa using this
  refine ⟨hcases, ?_⟩
  intro hne b hb
  rcases hcases with hnil | ⟨b', hb', _, hid⟩
  · rw [hnil] at hb; cases hb
  · rw [hb'] at hb
    rcases List.mem_singleton.mp hb with rfl
    intro hEq
    exact hne (hEq ▸ hid.symm)

/-- C9 witness: the theorem applied to the C1 scenario processor. -/
theorem c9_focus_events_not_forwarded_witness :
    ((process c1Proc c1NewEnv 0 "fresh-uuid").outputs = [] ∨
      ∃ b, (process c1Proc c1NewEnv 0 "fresh-uuid").outputs = [b] ∧
        b.event_type = c1Proc.focus_block_event_type ∧ b.event_id = "fresh-uuid") ∧
    ("fresh-uuid" ≠ c1NewEnv.event_id →
      ∀ b ∈ (process c1Proc c1NewEnv 0 "fresh-uuid").outputs, b ≠ c1NewEnv) :=
  c9_focus_events_not_forwarded c1Proc c1NewEnv 0 "fresh-uuid" (by decide)

/-- C2 counterexample: `os.foreground_changed` is in the debounce event
set and `c2EnvB` arrives 1 s after the previous envelope with the same
`(event_type, app, resource_id)` key — the claim then asserts that
`process` drops it recording the metric `drop.reason.debounce`; but under
the default configuration a foreground-change envelope takes the
focus-handling branch first, so no debounce metric is recorded (and the
debounce table is never even consulted). -/
theorem c2_debounce_counterexample :
    DEBOUNCE_EVENT_TYPES.contains (pyLower c2EnvB.event_type) = true ∧
    c2EnvA.event_type = c2EnvB.event_type ∧
    c2EnvA.app = c2EnvB.app ∧
    c2EnvA.resource.id = c2EnvB.resource.id ∧
    parse_ts c2EnvA.ts = some 0 ∧
    parse_ts c2EnvB.ts = some 1000000 ∧
    (1000000 : ℤ) - 0 < c2Proc0.debounce_seconds ∧
    c2Run2.drops = [] ∧
    ¬ "debounce" ∈ c2Run2.drops := by decide

/-- C2 (amended).  For an envelope whose lowered event type is in
`DEBOUNCE_EVENT_TYPES` but **not** in the processor's focus set (with the
default focus set that means `os.window_title_changed`), if the previous
envelope with the same `(event_type, app, resource_id)` key arrived less
than `debounce_seconds` before it, `process` drops the envelope — empty
output, metric `drop.reason.debounce` — while still recording the new
timestamp for the key; so of two same-key inputs inside the debounce
window at most one survives.  (Envelopes of focus event types never reach
the debounce branch: they are consumed by focus handling and are
themselves never forwarded, per C9.) -/
theorem c2_debounce_amended
    (p : PriorityProcessor) (E : EventEnvelope) (queueRatio : ℚ)
    (freshId : String) (t tl : Int)
    (hdt : DEBOUNCE_EVENT_TYPES.contains (pyLower E.event_type) = true)
    (hnf : (p.focus_event_types.map pyLower).contains (pyLower E.event_type) = false)
    (hts : parse_ts E.ts = some t)
    (hlast : tupLookup (pyLower E.event_type, E.app, E.resource.id) p.last_event_ts = some tl)
    (hwin : t - tl < p.debounce_seconds)
    (hq : queueRatio < p.drop_p2_when_queue_over) :
    (process p E queueRatio freshId).outputs = [] ∧
    (process p E queueRatio freshId).drops = ["debounce"] ∧
    (process p E queueRatio freshId).proc.last_event_ts =
      tupUpdate (pyLower E.event_type, E.app, E.resource.id) t p.last_event_ts := by
  have hnotp2 :
      ¬ (({ E with priority :=
          (classify_priority (pyLower E.event_type) E.priority p.p0Set p.p1Set p.p2Set)
        : EventEnvelope}).priority = "P2" ∧ p.drop_p2_when_queue_over ≤ queueRatio) := by
    rintro ⟨-, hle⟩
    exact absurd hq (not_lt.mpr hle)
  have hts' : to_epoch E.ts = some t := hts
  have hdeb : should_debounce p
      { E with priority :=
          (classify_priority (pyLower E.event_type) E.priority p.p0Set p.p1Set p.p2Set) }
      (pyLower E.event_type) =
      (true, { p with last_event_ts :=
        (tupUpdate (pyLower E.event_type, E.app, E.resource.id) t p.last_event_ts) }) := by
    unfold should_debounce
    simp only [hts', hlast]
    simp [hwin]
  unfold process
  simp only [if_neg hnotp2, hnf, Bool.false_eq_true, if_false, hdt, if_true, hdeb]
  exact ⟨trivial, trivial, trivial⟩

/-- C2 witness: the amended theorem applied to the spec's title-flapping
scenario (second `os.window_title_changed` 1 s after the first,
`debounce_seconds` = 2 s). -/
theorem c2_debounce_amended_witness :
    (process c2TitleProc c2TitleEnvB 0 "uuid-3").outputs = [] ∧
    (process c2TitleProc c2TitleEnvB 0 "uuid-3").drops = ["debounce"] ∧
    (process c2TitleProc c2TitleEnvB 0 "uuid-3").proc.last_event_ts =
      tupUpdate (pyLower c2TitleEnvB.event_type, c2TitleEnvB.app, c2TitleEnvB.resource.id)
        1000000 c2TitleProc.last_event_ts :=
  c2_debounce_amended c2TitleProc c2TitleEnvB 0 "uuid-3" 1000000 0
    (by decide) (by decide) (by decide) (by decide) (by decide) (by decide)

/-- Lower-casing cannot produce an `@`. -/
theorem pyToLower_ne_at (c : Char) (hc : c ≠ '@') : pyToLower c ≠ '@' := by
  by_cases h : isAsciiUpper c = true
  · have h65 : 65 ≤ c.toNat ∧ c.toNat ≤ 90 := by
      simp only [isAsciiUpper, Bool.and_eq_true, decide_eq_true_eq] at h
      exact h
    unfold pyToLower
    rw [if_pos h]
    intro heq
    have hv : (c.toNat + 32).isValidChar := Or.inl (by omega)
    have hnat : (Char.ofNat (c.toNat + 32)).toNat = c.toNat + 32 := by
      simp only [Char.ofNat]
      rw [dif_pos hv]
      rfl
    rw [heq] at hnat
    have h64 : (64 : Nat) = c.toNat + 32 := hnat
    omega
  · unfold pyToLower
    rw [if_neg h]
    exact hc

/-- Splitting at the first separator finds it after a separator-free
prefix. -/
theorem splitFirstAt_append (sep : Char) (a b : List Char)
    (ha : ∀ c ∈ a, c ≠ sep) : splitFirstAt sep (a ++ sep :: b) = some (a, b) := by
  induction a with
  | nil => simp [splitFirstAt]
  | cons x rest ih =>
      have hx : x ≠ sep := ha x (List.mem_cons_self x rest)
      have ih' := ih (fun c hc => ha c (List.mem_cons_of_mem x hc))
      simp [splitFirstAt, hx, ih']

/-- `strip()` only removes characters. -/
theorem mem_pyStripChars (c : Char) (l : List Char) (h : c ∈ pyStripChars l) :
    c ∈ l := by
  unfold pyStripChars at h
  rw [List.mem_reverse] at h
  have h1 := (List.dropWhile_sublist (l := (l.dropWhile isPySpace).reverse) isPySpace).mem h
  rw [List.mem_reverse] at h1
  exact (List.dropWhile_sublist isPySpace).mem h1

/-- Domain characters are never `@`. -/
theorem isDomainChar_ne_at (c : Char) (h : isDomainChar c = true) : c ≠ '@' := by
  rintro rfl
  simp [isDomainChar, isAsciiAlpha, isAsciiUpper, isAsciiLower, isAsciiDigit] at h

/-- Local-part characters are never `@`. -/
theorem isLocalChar_ne_at (c : Char) (h : isLocalChar c = true) : c ≠ '@' := by
  rintro rfl
  simp [isLocalChar, isAsciiAlpha, isAsciiUpper, isAsciiLower, isAsciiDigit] at h

/-- The domain part matched by `domainBacktrack` never contains `@`. -/
theorem domainBacktrack_no_at (m : List Char) (hm : ∀ c ∈ m, isDomainChar c = true) :
    ∀ (j : Nat) (dom : List Char) (used : Nat),
      domainBacktrack m j = some (dom, used) → ∀ c ∈ dom, c ≠ '@' := by
  intro j
  induction j with
  | zero => intro dom used h; cases h
  | succ jp ih =>
      intro dom used h c hc
      unfold domainBacktrack at h
      by_cases hcond : m.get? (jp + 1) = some '.' ∧
          2 ≤ ((m.drop (jp + 2)).takeWhile isAsciiAlpha).length
      · rw [if_pos hcond] at h
        rw [Option.some.injEq, Prod.mk.injEq] at h
        obtain ⟨hdom, -⟩ := h
        subst hdom
        rcases List.mem_append.mp hc with hin | hin
        · exact isDomainChar_ne_at c (hm c (List.mem_of_mem_take hin))
        · rcases List.mem_cons.mp hin with rfl | hin
          · decide
          · have := List.mem_takeWhile_imp hin
            rintro rfl
            simp [isAsciiAlpha, isAsciiUpper, isAsciiLower] at this
      · rw [if_neg hcond] at h
        exact ih dom used h c hc

/-- The whole `domainMatch` result never contains `@`. -/
theorem domainMatch_no_at (ds dom : List Char) (used : Nat)
    (h : domainMatch ds = some (dom, used)) : ∀ c ∈ dom, c ≠ '@' := by
  unfold domainMatch at h
  exact domainBacktrack_no_at (ds.takeWhile isDomainChar)
    (fun c hc => List.mem_takeWhile_imp hc) _ dom used h

/-- Every string returned by the e-mail scan is a local part, an `@`, and
a domain part, with no `@` on either side. -/
theorem emailScanAux_shape (fuel : Nat) :
    ∀ (cs : List Char) (e : List Char), e ∈ emailScanAux fuel cs →
      ∃ a dom, e = a ++ '@' :: dom ∧ (∀ c ∈ a, c ≠ '@') ∧ (∀ c ∈ dom, c ≠ '@') := by
  induction fuel with
  | zero => intro cs e he; simp [emailScanAux] at he
  | succ n ih =>
      intro cs e he
      match cs with
      | [] => simp [emailScanAux] at he
      | c :: cs' =>
          unfold emailScanAux at he
          by_cases hemp : ((c :: cs').takeWhile isLocalChar).isEmpty
          · rw [if_pos hemp] at he
            exact ih cs' e he
          · rw [if_neg hemp] at he
            split at he
            · rename_i ds heq
              split at he
              · rename_i pr dom used hdm
                rcases List.mem_cons.mp he with rfl | he'
                · refine ⟨(c :: cs').takeWhile isLocalChar, dom, rfl, ?_, ?_⟩
                  · exact fun ch hch =>
                      isLocalChar_ne_at ch (List.mem_takeWhile_imp hch)
                  · exact domainMatch_no_at ds dom used hdm
                · exact ih _ e he'
              · exact ih ds e he
            · exact ih _ e he

/-- `EMAIL_PATTERN.findall` matches have the local-`@`-domain shape. -/
theorem emailFindall_shape (s : String) (e : List Char) (he : e ∈ emailFindall s) :
    ∃ a dom, e = a ++ '@' :: dom ∧ (∀ c ∈ a, c ≠ '@') ∧ (∀ c ∈ dom, c ≠ '@') :=
  emailScanAux_shape s.data.length s.data e he

mutual

theorem collect_emails_shape : ∀ (v : PVal) (e : List Char), e ∈ collect_emails v →
    ∃ a dom, e = a ++ '@' :: dom ∧ (∀ c ∈ a, c ≠ '@') ∧ (∀ c ∈ dom, c ≠ '@')
  | .str s, e, he => emailFindall_shape s e he
  | .int _, _, he => absurd he (by simp [collect_emails])
  | .bool _, _, he => absurd he (by simp [collect_emails])
  | .none, _, he => absurd he (by simp [collect_emails])
  | .list items, e, he => collectEmailsList_shape items e he
  | .dict items, e, he => collectEmailsKVs_shape items e he

theorem collectEmailsList_shape : ∀ (items : List PVal) (e : List Char),
    e ∈ collectEmailsList items →
    ∃ a dom, e = a ++ '@' :: dom ∧ (∀ c ∈ a, c ≠ '@') ∧ (∀ c ∈ dom, c ≠ '@')
  | [], _, he => absurd he (by simp [collectEmailsList])
  | v :: rest, e, he => by
      rw [collectEmailsList] at he
      rcases List.mem_append.mp he with h | h
      · exact collect_emails_shape v e h
      · exact collectEmailsList_shape rest e h

theorem collectEmailsKVs_shape : ∀ (items : List (String × PVal)) (e : List Char),
    e ∈ collectEmailsKVs items →
    ∃ a dom, e = a ++ '@' :: dom ∧ (∀ c ∈ a, c ≠ '@') ∧ (∀ c ∈ dom, c ≠ '@')
  | [], _, he => absurd he (by simp [collectEmailsKVs])
  | (_, v) :: rest, e, he => by
      rw [collectEmailsKVs] at he
      rcases List.mem_append.mp he with h | h
      · exact collect_emails_shape v e h
      · exact collectEmailsKVs_shape rest e h

end

/-- `_extract_domain` of a shaped match contains no `@`. -/
theorem extract_domain_no_at (a dom : List Char)
    (ha : ∀ c ∈ a, c ≠ '@') (hdom : ∀ c ∈ dom, c ≠ '@') :
    ∀ c ∈ extract_domain (a ++ '@' :: dom), c ≠ '@' := by
  have hat : pyToLower '@' = '@' := by decide
  have hmap : (a ++ '@' :: dom).map pyToLower =
      a.map pyToLower ++ '@' :: dom.map pyToLower := by
    simp [hat]
  have hsplit : splitFirstAt '@' ((a ++ '@' :: dom).map pyToLower) =
      some (a.map pyToLower, dom.map pyToLower) := by
    rw [hmap]
    refine splitFirstAt_append '@' (a.map pyToLower) (dom.map pyToLower) ?_
    intro c hc
    rcases List.mem_map.mp hc with ⟨c0, hc0, rfl⟩
    exact pyToLower_ne_at c0 (ha c0 hc0)
  intro c hc
  unfold extract_domain at hc
  simp only [hsplit] at hc
  have hc' := mem_pyStripChars c _ hc
  rcases List.mem_map.mp hc' with ⟨c0, hc0, rfl⟩
  exact pyToLower_ne_at c0 (hdom c0 hc0)

/-- A character list with no `@` has `contains '@' = false`. -/
theorem contains_at_false (l : List Char) (h : ∀ c ∈ l, c ≠ '@') :
    l.contains '@' = false := by
  induction l with
  | nil => rfl
  | cons c rest ih =>
      have hc : ('@' == c) = false := by
        cases hbe : ('@' == c)
        · rfl
        · exact absurd (eq_of_beq hbe).symm (h c (List.mem_cons_self c rest))
      have ih' := ih (fun x hx => h x (List.mem_cons_of_mem c hx))
      simp only [List.contains_cons, hc, Bool.false_or]
      exact ih'

/-- The keys of a bumped counter are the bumped key plus old keys. -/
theorem bumpCount_keys (k : String) (acc : List (String × Int)) (k' : String)
    (h : k' ∈ (bumpCount k acc).map Prod.fst) :
    k' = k ∨ k' ∈ acc.map Prod.fst := by
  induction acc with
  | nil =>
      simp only [bumpCount, List.map_cons, List.map_nil, List.mem_singleton] at h
      exact Or.inl h
  | cons kv rest ih =>
      obtain ⟨k0, n0⟩ := kv
      by_cases hk : k0 = k
      · subst hk
        rw [bumpCount, if_pos rfl] at h
        simp only [List.map_cons, List.mem_cons] at h
        rcases h with rfl | h
        · exact Or.inl rfl
        · right
          simp only [List.map_cons, List.mem_cons]
          exact Or.inr h
      · rw [bumpCount, if_neg hk] at h
        simp only [List.map_cons, List.mem_cons] at h
        rcases h with rfl | h
        · right
          simp
        · rcases ih h with h' | h'
          · exact Or.inl h'
          · right
            simp only [List.map_cons, List.mem_cons]
            exact Or.inr h'

/-- Every key accumulated by the `domain_stats` fold of
`_summarize_recipients` is an extracted domain with no `@` (or was
already in the accumulator). -/
theorem domainStats_fold_no_at : ∀ (emails : List (List Char)),
    (∀ e ∈ emails, ∃ a dom, e = a ++ '@' :: dom ∧
      (∀ c ∈ a, c ≠ '@') ∧ (∀ c ∈ dom, c ≠ '@')) →
    ∀ (acc : List (String × Int)),
    (∀ kk ∈ acc.map Prod.fst, kk.data.contains '@' = false) →
    ∀ kk ∈ (emails.foldl (fun acc e =>
        if (extract_domain e).isEmpty then acc
        else bumpCount (String.mk (extract_domain e)) acc) acc).map Prod.fst,
      kk.data.contains '@' = false := by
  intro emails
  induction emails with
  | nil => intro _ acc hacc; simpa using hacc
  | cons e rest ih =>
      intro hshape acc hacc
      simp only [List.foldl_cons]
      refine ih (fun x hx => hshape x (List.mem_cons_of_mem e hx)) _ ?_
      intro k2 hk2
      by_cases hd : (extract_domain e).isEmpty
      · rw [if_pos hd] at hk2
        exact hacc k2 hk2
      · rw [if_neg hd] at hk2
        rcases bumpCount_keys _ acc k2 hk2 with rfl | h
        · obtain ⟨a, dom, heq, ha, hdom⟩ := hshape e (List.mem_cons_self e rest)
          have := extract_domain_no_at a dom ha hdom
          rw [← heq] at this
          exact contains_at_false _ this
        · exact hacc k2 h

/-- The recipient summary never contains an `@` in any of its strings. -/
theorem summarize_recipients_no_at (v : PVal) :
    pvalNoAt (summarize_recipients v) = true := by
  unfold summarize_recipients
  by_cases hemp : (collect_emails v).isEmpty
  · rw [if_pos hemp]
    cases coerce_recipient_count v with
    | none => rfl
    | some n => rfl
  · rw [if_neg hemp]
    have hkeys := domainStats_fold_no_at (collect_emails v)
      (fun e he => collect_emails_shape v e he) [] (by simp)
    have hkv : ∀ (l : List (String × Int)),
        (∀ kk ∈ l.map Prod.fst, kk.data.contains '@' = false) →
        pvalKVsNoAt (l.map (fun p => (p.1, PVal.int p.2))) = true := by
      intro l
      induction l with
      | nil => intro _; rfl
      | cons kv rest ih =>
          intro hl
          obtain ⟨k0, n0⟩ := kv
          have hk0 := hl k0 (by simp)
          simp only [List.map_cons, pvalKVsNoAt, pvalNoAt, hk0, Bool.not_false,
            Bool.true_and]
          exact ih (fun kk hkk => hl kk (by simp [hkk]))
    by_cases hse : ((collect_emails v).foldl (fun acc e =>
        if (extract_domain e).isEmpty then acc
        else bumpCount (String.mk (extract_domain e)) acc) []).isEmpty
    · simp only [hse, if_true]
      rfl
    · simp only [hse, Bool.false_eq_true, if_false]
      have h1 : ("count".data.contains '@') = false := by decide
      have h2 : ("domain_stats".data.contains '@') = false := by decide
      simp only [pvalNoAt, pvalKVsNoAt, List.cons_append, List.nil_append, h1, h2,
        Bool.not_false, Bool.true_and, Bool.and_true]
      exact hkv _ hkeys

/-- The summary is a dict whose first entry is an integer `count`. -/
theorem summarize_recipients_shape (v : PVal) :
    ∃ n rest, summarize_recipients v = PVal.dict (("count", PVal.int n) :: rest) := by
  unfold summarize_recipients
  by_cases hemp : (collect_emails v).isEmpty
  · rw [if_pos hemp]
    cases coerce_recipient_count v with
    | none => exact ⟨0, [], rfl⟩
    | some n => exact ⟨n, [], rfl⟩
  · rw [if_neg hemp]
    by_cases hse : ((collect_emails v).foldl (fun acc e =>
        if (extract_domain e).isEmpty then acc
        else bumpCount (String.mk (extract_domain e)) acc) []).isEmpty
    · simp only [hse, if_true]
      exact ⟨_, [], rfl⟩
    · simp only [hse, Bool.false_eq_true, if_false]
      exact ⟨_, _, rfl⟩

/-- Association lookup distributes over append. -/
theorem alookup_append (k : String) (l1 l2 : List (String × PVal)) :
    alookup k (l1 ++ l2) =
      match alookup k l1 with
      | some v => some v
      | Option.none => alookup k l2 := by
  induction l1 with
  | nil => simp [alookup]
  | cons kv rest ih =>
      obtain ⟨k', v'⟩ := kv
      by_cases hk : k' = k
      · simp [alookup, hk]
      · simp [alookup, hk, ih]

/-- One payload step either keeps the sanitized accumulator or appends a
single entry with the same key as the input entry. -/
theorem applyPayloadStep_cases (g : PrivacyGuard) (acc : List (String × PVal) × List String)
    (k : String) (v : PVal) :
    (applyPayloadStep g acc (k, v)).1 = acc.1 ∨
    ∃ w, (applyPayloadStep g acc (k, v)).1 = acc.1 ++ [(k, w)] := by
  unfold applyPayloadStep
  by_cases h1 : pyLower k ∈ g.rules.drop_payload_keys
  · left; simp [h1]
  · by_cases h2 : pyLower k ∈ EMAIL_KEYS
    · right
      refine ⟨summarize_recipients v, ?_⟩
      simp [h1, h2]
    · right
      refine ⟨(sanitize_payload_value g k v acc.2).1, ?_⟩
      simp [h1, h2]

/-- The payload fold only appends to the sanitized accumulator. -/
theorem applyPayload_fold_extends (g : PrivacyGuard) :
    ∀ (l : List (String × PVal)) (acc : List (String × PVal)) (reds : List String),
      ∃ suffix, (l.foldl (applyPayloadStep g) (acc, reds)).1 = acc ++ suffix := by
  intro l
  induction l with
  | nil => intro acc reds; exact ⟨[], by simp⟩
  | cons kv rest ih =>
      obtain ⟨k, v⟩ := kv
      intro acc reds
      simp only [List.foldl_cons]
      rcases applyPayloadStep_cases g (acc, reds) k v with hC | ⟨w, hC⟩
      · rcases hstep : applyPayloadStep g (acc, reds) (k, v) with ⟨acc2, reds2⟩
        rw [hstep] at hC
        simp only at hC
        obtain ⟨sfx, hsfx⟩ := ih acc2 reds2
        refine ⟨sfx, ?_⟩
        rw [hsfx, hC]
      · rcases hstep : applyPayloadStep g (acc, reds) (k, v) with ⟨acc2, reds2⟩
        rw [hstep] at hC
        simp only at hC
        obtain ⟨sfx, hsfx⟩ := ih acc2 reds2
        refine ⟨(k, w) :: sfx, ?_⟩
        rw [hsfx, hC]
        simp

/-- Through the payload fold, a payload key in `EMAIL_KEYS` (and not in
the drop set) ends up mapped to its recipient summary. -/
theorem applyPayload_lookup (g : PrivacyGuard) (key : String) (v : PVal)
    (hkey : EMAIL_KEYS.contains (pyLower key) = true)
    (hdrop : g.rules.drop_payload_keys.contains (pyLower key) = false) :
    ∀ (l : List (String × PVal)) (acc : List (String × PVal)) (reds : List String),
      alookup key l = some v → alookup key acc = Option.none →
      alookup key (l.foldl (applyPayloadStep g) (acc, reds)).1 =
        some (summarize_recipients v) := by
  intro l
  induction l with
  | nil => intro acc reds hmem _; cases hmem
  | cons kv rest ih =>
      obtain ⟨k', v'⟩ := kv
      intro acc reds hmem hacc
      simp only [List.foldl_cons]
      by_cases hk : k' = key
      · subst hk
        rw [alookup, if_pos rfl, Option.some.injEq] at hmem
        subst hmem
        have hstep : applyPayloadStep g (acc, reds) (k', v') =
            (acc ++ [(k', summarize_recipients v')],
             reds ++ ["recipients_summarized:" ++ pyLower k']) := by
          have hkey2 : pyLower k' ∈ EMAIL_KEYS := by simpa using hkey
          have hdrop2 : pyLower k' ∉ g.rules.drop_payload_keys := by
            simpa using hdrop
          unfold applyPayloadStep
          simp [hkey2, hdrop2]
        rw [hstep]
        obtain ⟨sfx, hsfx⟩ := applyPayload_fold_extends g rest
          (acc ++ [(k', summarize_recipients v')])
          (reds ++ ["recipients_summarized:" ++ pyLower k'])
        rw [hsfx, List.append_assoc, alookup_append, hacc]
        simp [alookup]
      · rw [alookup, if_neg hk] at hmem
        rcases applyPayloadStep_cases g (acc, reds) k' v' with hC | ⟨w, hC⟩
        · rcases hstep : applyPayloadStep g (acc, reds) (k', v') with ⟨acc2, reds2⟩
          rw [hstep] at hC
          simp only at hC
          subst hC
          exact ih acc2 reds2 hmem hacc
        · rcases hstep : applyPayloadStep g (acc, reds) (k', v') with ⟨acc2, reds2⟩
          rw [hstep] at hC
          simp only at hC
          subst hC
          refine ih _ reds2 hmem ?_
          rw [alookup_append, hacc]
          simp [alookup, hk]

/-- C3.  For every envelope that passes the allow/deny gates, every
payload key in `EMAIL_KEYS` (case-insensitively) that is not configured
for outright dropping has its value replaced by
`_summarize_recipients(value)` — a dict carrying an integer `count`
first (and, when domains were extracted, `domain_stats`), in which no
string, key or value, contains an `@`: no raw e-mail address from the
original value survives into the output envelope. -/
theorem c3_recipient_summarization
    (g : PrivacyGuard) (e : EventEnvelope) (key : String) (v : PVal)
    (hallow : g.rules.allowlist_apps = [] ∨
      g.rules.allowlist_apps.contains (pyLower e.app) = true)
    (hdeny : g.rules.denylist_apps.contains (pyLower e.app) = false)
    (hkey : EMAIL_KEYS.contains (pyLower key) = true)
    (hdrop : g.rules.drop_payload_keys.contains (pyLower key) = false)
    (hmem : alookup key e.payload = some v) :
    ∃ e', privacyApply g e = some e' ∧
      alookup key e'.payload = some (summarize_recipients v) ∧
      pvalNoAt (summarize_recipients v) = true ∧
      ∃ n rest, summarize_recipients v = PVal.dict (("count", PVal.int n) :: rest) := by
  have hgate1 : ¬ (g.rules.allowlist_apps ≠ [] ∧
      ¬ g.rules.allowlist_apps.contains (pyLower e.app) = true) := by
    rcases hallow with h | h
    · rintro ⟨hne, -⟩; exact hne h
    · rintro ⟨-, hnc⟩; exact hnc h
  have hgate2 : ¬ (g.rules.denylist_apps ≠ [] ∧
      g.rules.denylist_apps.contains (pyLower e.app) = true) := by
    rintro ⟨-, hc⟩
    rw [hdeny] at hc
    cases hc
  unfold privacyApply
  rw [if_neg hgate1, if_neg hgate2]
  refine ⟨_, rfl, ?_, summarize_recipients_no_at v, summarize_recipients_shape v⟩
  exact applyPayload_lookup g key v hkey hdrop e.payload [] _ hmem rfl

/-- Witness for C3: the three-recipient example from the specification,
which summarizes to count 3 with domain stats x.com ↦ 2, y.com ↦ 1. -/
theorem c3_recipient_summarization_witness :
    (∃ e', privacyApply c3Guard c3Env = some e' ∧
      alookup "recipients" e'.payload =
        some (summarize_recipients
          (PVal.list [PVal.str "a@x.com", PVal.str "b@x.com", PVal.str "c@y.com"])) ∧
      pvalNoAt (summarize_recipients
          (PVal.list [PVal.str "a@x.com", PVal.str "b@x.com", PVal.str "c@y.com"])) = true ∧
      ∃ n rest, summarize_recipients
          (PVal.list [PVal.str "a@x.com", PVal.str "b@x.com", PVal.str "c@y.com"]) =
        PVal.dict (("count", PVal.int n) :: rest)) ∧
    summarize_recipients
        (PVal.list [PVal.str "a@x.com", PVal.str "b@x.com", PVal.str "c@y.com"]) =
      PVal.dict [("count", PVal.int 3),
        ("domain_stats", PVal.dict [("x.com", PVal.int 2), ("y.com", PVal.int 1)])] := by
  refine ⟨c3_recipient_summarization c3Guard c3Env "recipients" _
    (Or.inl rfl) (by decide) (by decide) (by decide) rfl, ?_⟩
  decide

/-- An inert key's payload entry passes through the sanitizing step
unchanged, adding no redaction tag. -/
theorem applyPayloadStep_inert (g : PrivacyGuard) (k : String) (v : PVal)
    (a : List (String × PVal)) (r : List String)
    (h : payloadKeyInert g k = true) :
    applyPayloadStep g (a, r) (k, v) = (a ++ [(k, v)], r) := by
  simp only [payloadKeyInert, Bool.and_eq_true, Bool.not_eq_true'] at h
  obtain ⟨⟨⟨⟨⟨h1, h2⟩, h3⟩, h4⟩, h5⟩, h6⟩ := h
  have h4' : pyLower k ≠ "url" := by
    intro hc; rw [hc] at h4; simp at h4
  have h6' : slookup (pyLower k) g.rules.length_limits = Option.none := by
    simpa [Option.isNone_iff_eq_none] using h6
  have h1' : pyLower k ∉ g.rules.drop_payload_keys := by simpa using h1
  have h2' : pyLower k ∉ EMAIL_KEYS := by simpa using h2
  have h3' : pyLower k ∉ g.rules.hash_keys := by simpa using h3
  have h5' : pyLower k ∉ g.rules.mask_keys := by simpa using h5
  cases v <;>
    simp [applyPayloadStep, sanitize_payload_value, h1', h2', h3', h4', h5', h6']

/-- A payload all of whose keys are inert passes through the sanitizing
fold unchanged. -/
theorem applyPayload_inert (g : PrivacyGuard) :
    ∀ (l : List (String × PVal)) (acc : List (String × PVal)) (reds : List String),
      (∀ kv ∈ l, payloadKeyInert g kv.1 = true) →
      List.foldl (applyPayloadStep g) (acc, reds) l = (acc ++ l, reds) := by
  intro l
  induction l with
  | nil => intro acc reds _; simp
  | cons kv rest ih =>
      obtain ⟨k, v⟩ := kv
      intro acc reds h
      have hk := h (k, v) (List.mem_cons_self _ _)
      have hrest : ∀ kv ∈ rest, payloadKeyInert g kv.1 = true :=
        fun kv hkv => h kv (List.mem_cons_of_mem _ hkv)
      simp only [List.foldl_cons, applyPayloadStep_inert g k v acc reds hk]
      rw [ih (acc ++ [(k, v)]) reds hrest]
      simp

/-- On an envelope with no window id, an unhashable resource id and an
all-inert payload, `apply` only deduplicates the redaction list. -/
theorem privacyApply_inert (g : PrivacyGuard) (e : EventEnvelope)
    (hgate1 : ¬ (g.rules.allowlist_apps ≠ [] ∧
      ¬ g.rules.allowlist_apps.contains (pyLower e.app) = true))
    (hgate2 : ¬ (g.rules.denylist_apps ≠ [] ∧
      g.rules.denylist_apps.contains (pyLower e.app) = true))
    (hwin : e.window_id = Option.none)
    (hres : ¬ (e.resource.id ≠ "" ∧ e.resource.id ≠ "unknown"))
    (hinert : ∀ kv ∈ e.payload, payloadKeyInert g kv.1 = true) :
    privacyApply g e = some { e with privacy :=
      (PrivacyMetadata.mk e.privacy.pii_level (dedupe e.privacy.redaction)) } := by
  unfold privacyApply
  rw [if_neg hgate1, if_neg hgate2]
  simp only [hwin, if_neg hres, applyPayload_inert g e.payload [] e.privacy.redaction hinert]
  simp [hwin]

/-- C4 counterexample.  A second `apply` is not the identity up to
redaction dedup: the already-hashed window id is hashed again, and the
recipient summary collapses (its `domain_stats` disappear), while the
redaction lists are already identical — so the difference is not
deduplication. -/
theorem c4_privacy_idempotence_counterexample :
    ∃ e1 e2, privacyApply c4Guard c4Env = some e1 ∧
      privacyApply c4Guard e1 = some e2 ∧
      e1.privacy.redaction = e2.privacy.redaction ∧
      e1.window_id = some "H[win-1]" ∧
      e2.window_id = some "H[H[win-1]]" ∧
      alookup "recipients" e1.payload = some (PVal.dict
        [("count", PVal.int 2), ("domain_stats", PVal.dict [("x.com", PVal.int 2)])]) ∧
      alookup "recipients" e2.payload = some (PVal.dict [("count", PVal.int 2)]) := by
  refine ⟨_, _, rfl, rfl, ?_, ?_, ?_, ?_, ?_⟩ <;> decide

/-- C4 (amended).  `apply` is idempotent only away from the re-hashed and
re-summarized fields: if the envelope has no window id, a resource id the
guard does not hash, and only inert payload keys (not dropped, hashed,
masked, summarized, URL-sanitized or truncated), then a second pass
returns the first pass's output unchanged. -/
theorem c4_privacy_idempotence_amended
    (g : PrivacyGuard) (e : EventEnvelope)
    (hallow : g.rules.allowlist_apps = [] ∨
      g.rules.allowlist_apps.contains (pyLower e.app) = true)
    (hdeny : g.rules.denylist_apps.contains (pyLower e.app) = false)
    (hwin : e.window_id = Option.none)
    (hres : ¬ (e.resource.id ≠ "" ∧ e.resource.id ≠ "unknown"))
    (hinert : ∀ kv ∈ e.payload, payloadKeyInert g kv.1 = true) :
    ∃ e', privacyApply g e = some e' ∧ privacyApply g e' = some e' := by
  have hgate1 : ¬ (g.rules.allowlist_apps ≠ [] ∧
      ¬ g.rules.allowlist_apps.contains (pyLower e.app) = true) := by
    rcases hallow with h | h
    · rintro ⟨hne, -⟩; exact hne h
    · rintro ⟨-, hnc⟩; exact hnc h
  have hgate2 : ¬ (g.rules.denylist_apps ≠ [] ∧
      g.rules.denylist_apps.contains (pyLower e.app) = true) := by
    rintro ⟨-, hc⟩
    rw [hdeny] at hc
    cases hc
  refine ⟨_, privacyApply_inert g e hgate1 hgate2 hwin hres hinert, ?_⟩
  have h2 := privacyApply_inert g
    { e with privacy :=
      (PrivacyMetadata.mk e.privacy.pii_level (dedupe e.privacy.redaction)) }
    hgate1 hgate2 hwin hres hinert
  rw [h2]
  show some ({ e with privacy :=
      (PrivacyMetadata.mk e.privacy.pii_level (dedupe (dedupe e.privacy.redaction))) }) =
    some ({ e with privacy :=
      (PrivacyMetadata.mk e.privacy.pii_level (dedupe e.privacy.redaction)) })
  rw [dedupe_idem]

/-- Witness for the amended C4 theorem on a concrete envelope. -/
theorem c4_privacy_idempotence_amended_witness :
    ∃ e', privacyApply c4Guard c4AmendEnv = some e' ∧
      privacyApply c4Guard e' = some e' :=
  c4_privacy_idempotence_amended c4Guard c4AmendEnv (Or.inl rfl) (by decide) rfl
    (by decide) (by decide)

/-! ## C5: activity-detail title hints -/
/-- C5 (amended).  In every activity-detail record the bus builds, a
non-empty clear-text `title_hint` occurs only when `store_hint` is true —
the `full_title_apps` allowlist does not gate it (it only swaps in the raw
title) — and with a positive `max_title_len` the hint is clipped to at
most that many characters. -/
theorem c5_title_hint_amended
    (batch : List EventEnvelope) (minDurationSec : Int) (storeHint : Bool)
    (hashSalt : String) (fullTitleApps : List String) (maxTitleLen : Int)
    (hmacF : String → String → String)
    (rec : String × String × String × String × String × Int)
    (hrec : rec ∈ build_activity_detail_records batch minDurationSec storeHint
      hashSalt fullTitleApps maxTitleLen hmacF) :
    (rec.2.2.1 ≠ "" → storeHint = true) ∧
    (0 < maxTitleLen → (rec.2.2.1.length : Int) ≤ maxTitleLen) := by
  rw [build_activity_detail_records] at hrec
  obtain ⟨output, -, hf⟩ := List.mem_filterMap.mp hrec
  simp only at hf
  split at hf
  · cases hf
  · split at hf
    · cases hf
    · rename_i duration hdur
      split at hf
      · cases hf
      · split at hf
        · cases hf
        · split at hf
          · rename_i t ht
            split at hf
            · cases hf
            · rw [Option.some.injEq] at hf
              subst hf
              refine ⟨?_, ?_⟩
              · dsimp only
                intro hne
                by_contra hsh
                have hsh' : storeHint = false := by
                  cases storeHint
                  · rfl
                  · exact absurd rfl hsh
                rw [hsh'] at hne
                simp at hne
              · dsimp only
                intro hpos
                cases storeHint
                · simpa using hpos.le
                · simp only [eq_self_iff_true, if_true]
                  split
                  · have h1 : (List.take maxTitleLen.toNat
                        (normalize_title (pyStrip output.app) (pyStrip t)).data).length ≤
                        maxTitleLen.toNat := List.length_take_le _ _
                    have h2 : (String.mk (List.take maxTitleLen.toNat
                        (normalize_title (pyStrip output.app) (pyStrip t)).data)).length =
                        (List.take maxTitleLen.toNat
                          (normalize_title (pyStrip output.app) (pyStrip t)).data).length := rfl
                    rw [h2]
                    omega
                  · rename_i hcond
                    rw [not_and_or] at hcond
                    rcases hcond with hempty | hcond
                    · rw [not_not] at hempty
                      rw [hempty]
                      simpa using hpos.le
                    · rw [not_and_or] at hcond
                      rcases hcond with hc | hc
                      · exact absurd hpos hc
                      · omega
          · cases hf

/-- C5 counterexample.  With `store_hint = true` the bus persists the
clear-text title hint even though `chrome.exe` is not on the
`full_title_apps` allowlist — the allowlist does not gate the hint. -/
theorem c5_title_hint_counterexample :
    build_activity_detail_records [c5Block] 5 true "salt" ["notion.exe"] 120 c5Hmac =
      [("chrome.exe", "H[Secret Q3 board deck - Slides]",
        "Secret Q3 board deck - Slides",
        "2025-01-01T00:00:00+00:00", "2025-01-01T00:00:00+00:00", 30)] ∧
    "chrome.exe" ∉ ["notion.exe"] := by
  constructor
  · decide
  · decide

/-- Witness for the amended C5 theorem: a concrete clipped record. -/
theorem c5_title_hint_amended_witness :
    (c5Rec ∈ build_activity_detail_records [c5Block] 5 true "salt" ["notion.exe"] 12 c5Hmac) ∧
    ((c5Rec.2.2.1 ≠ "" → true = true) ∧
      (0 < (12 : Int) → (c5Rec.2.2.1.length : Int) ≤ 12)) :=
  have hmem : c5Rec ∈ build_activity_detail_records [c5Block] 5 true "salt"
      ["notion.exe"] 12 c5Hmac := by decide
  ⟨hmem, c5_title_hint_amended [c5Block] 5 true "salt" ["notion.exe"] 12 c5Hmac c5Rec hmem⟩

/-- The size-guard loop refines the spec-side first-fit-or-last walk. -/
theorem sizeGuardLoop_spec (store : StoreModel) (rules : PrivacyRules)
    (packageId createdAt : String) (maxSizeBytes maxEvidence redactionScanLimit : Int)
    (now : Int) :
    ∀ (profs : List (Int × Int × Int)) (lp : PVal) (ls : Int), profs ≠ [] →
      ((sizeGuardLoop store rules packageId createdAt maxSizeBytes maxEvidence
          redactionScanLimit now profs lp ls).payload,
       (sizeGuardLoop store rules packageId createdAt maxSizeBytes maxEvidence
          redactionScanLimit now profs lp ls).size_bytes) =
        sizeGuardSpec maxSizeBytes
          (profs.map (handoffCandidate store rules packageId createdAt maxEvidence
            redactionScanLimit now)) := by
  intro profs
  induction profs with
  | nil => intro lp ls h; exact absurd rfl h
  | cons p rest ih =>
      rintro lp ls -
      obtain ⟨sl, rl, resl⟩ := p
      cases rest with
      | nil =>
          simp only [sizeGuardLoop, List.map_cons, List.map_nil, sizeGuardSpec,
            handoffCandidate]
          split <;> rfl
      | cons p2 rest2 =>
          simp only [sizeGuardLoop, List.map_cons, sizeGuardSpec, handoffCandidate]
          split
          · rfl
          · exact ih (.dict []) 0 (List.cons_ne_nil _ _)

/-- A first-fit-or-last walk either fits the limit or returns the last
candidate. -/
theorem sizeGuardSpec_fits_or_last (maxSizeBytes : Int) :
    ∀ (l : List (PVal × Int)), l ≠ [] →
      (sizeGuardSpec maxSizeBytes l).2 ≤ maxSizeBytes ∨
      l.getLast? = some (sizeGuardSpec maxSizeBytes l) := by
  intro l
  induction l with
  | nil => intro h; exact absurd rfl h
  | cons c rest ih =>
      rintro -
      cases rest with
      | nil => right; rfl
      | cons c2 rest2 =>
          rw [sizeGuardSpec]
          split
          · rename_i hfit; exact Or.inl hfit
          · rcases ih (by simp) with hfit | hlast
            · exact Or.inl hfit
            · right
              rw [← hlast]
              rfl

/-- C6.  `build_handoff_with_size_guard` walks the descending profile
list — under the default limits (3, 10, 10) exactly
(3,10,10), (2,10,10), (1,5,5), (1,3,3), (1,1,1) — returning the first
built-and-scrubbed package whose serialized size fits `max_size_bytes`,
else the last (smallest-profile) one; hence the result fits the limit or
is the smallest profile's output. -/
theorem c6_handoff_size_guard (store : StoreModel) (rules : PrivacyRules)
    (packageId createdAt : String)
    (maxSizeBytes recentSessions recentRoutines maxResources
      maxEvidence redactionScanLimit : Int) (now : Int) :
    handoffProfiles 3 10 10 = [(3,10,10), (2,10,10), (1,5,5), (1,3,3), (1,1,1)] ∧
    ((build_handoff_with_size_guard store rules packageId createdAt maxSizeBytes
        recentSessions recentRoutines maxResources maxEvidence redactionScanLimit
        now).payload,
     (build_handoff_with_size_guard store rules packageId createdAt maxSizeBytes
        recentSessions recentRoutines maxResources maxEvidence redactionScanLimit
        now).size_bytes) =
      sizeGuardSpec maxSizeBytes
        ((handoffProfiles recentSessions recentRoutines maxResources).map
          (handoffCandidate store rules packageId createdAt maxEvidence
            redactionScanLimit now)) ∧
    ((build_handoff_with_size_guard store rules packageId createdAt maxSizeBytes
        recentSessions recentRoutines maxResources maxEvidence redactionScanLimit
        now).size_bytes ≤ maxSizeBytes ∨
     (build_handoff_with_size_guard store rules packageId createdAt maxSizeBytes
        recentSessions recentRoutines maxResources maxEvidence redactionScanLimit
        now).payload =
       scrub_payload (build_handoff_payload store rules packageId createdAt
         1 1 1 maxEvidence redactionScanLimit now)) := by
  refine ⟨by decide, ?_, ?_⟩
  · rw [build_handoff_with_size_guard]
    exact sizeGuardLoop_spec store rules packageId createdAt maxSizeBytes maxEvidence
      redactionScanLimit now _ (.dict []) 0 (by simp [handoffProfiles])
  · have href := sizeGuardLoop_spec store rules packageId createdAt maxSizeBytes
      maxEvidence redactionScanLimit now
      (handoffProfiles recentSessions recentRoutines maxResources) (.dict []) 0
      (by simp [handoffProfiles])
    rw [build_handoff_with_size_guard]
    rcases sizeGuardSpec_fits_or_last maxSizeBytes
      ((handoffProfiles recentSessions recentRoutines maxResources).map
        (handoffCandidate store rules packageId createdAt maxEvidence
          redactionScanLimit now)) (by simp [handoffProfiles]) with hfit | hlast
    · left
      have := congrArg Prod.snd href
      simp only at this
      rw [this]
      exact hfit
    · right
      have h2 := congrArg Prod.fst href
      simp only at h2
      rw [h2]
      have hlast' : ((handoffProfiles recentSessions recentRoutines maxResources).map
          (handoffCandidate store rules packageId createdAt maxEvidence
            redactionScanLimit now)).getLast? =
          some (handoffCandidate store rules packageId createdAt maxEvidence
            redactionScanLimit now (1, 1, 1)) := by
        simp [handoffProfiles]
      rw [hlast'] at hlast
      rw [Option.some.injEq] at hlast
      rw [← hlast]
      rfl

/-- Membership in a descending insertion. -/
theorem mem_insertDesc {α : Type} (le : α → α → Bool) (x : α) :
    ∀ (l : List α) (z : α), z ∈ insertDesc le x l ↔ z = x ∨ z ∈ l := by
  intro l
  induction l with
  | nil => intro z; simp [insertDesc]
  | cons y rest ih =>
      intro z
      rw [insertDesc]
      split
      · simp
      · simp only [List.mem_cons, ih z]
        tauto

/-- Inserting into a descending-sorted list keeps it descending-sorted,
for a total transitive comparison. -/
theorem pairwise_insertDesc {α : Type} (le : α → α → Bool)
    (htot : ∀ a b, le a b = true ∨ le b a = true)
    (htrans : ∀ a b c, le a b = true → le b c = true → le a c = true)
    (x : α) :
    ∀ (l : List α), List.Pairwise (fun a b => le b a = true) l →
      List.Pairwise (fun a b => le b a = true) (insertDesc le x l) := by
  intro l
  induction l with
  | nil => intro h; simp [insertDesc]
  | cons y rest ih =>
      intro h
      rw [List.pairwise_cons] at h
      obtain ⟨hy, hrest⟩ := h
      rw [insertDesc]
      split
      · rename_i hyx
        rw [List.pairwise_cons]
        refine ⟨?_, List.pairwise_cons.mpr ⟨hy, hrest⟩⟩
        intro z hz
        rcases List.mem_cons.mp hz with rfl | hz'
        · exact hyx
        · exact htrans _ _ _ (hy z hz') hyx
      · rename_i hyx
        rw [List.pairwise_cons]
        refine ⟨?_, ih hrest⟩
        intro z hz
        rcases (mem_insertDesc le x rest z).mp hz with rfl | hz'
        · rcases htot y z with h | h
          · exact absurd h hyx
          · exact h
        · exact hy z hz'

/-- The descending insertion sort sorts, for a total transitive
comparison. -/
theorem pairwise_sortDescBy {α : Type} (le : α → α → Bool)
    (htot : ∀ a b, le a b = true ∨ le b a = true)
    (htrans : ∀ a b c, le a b = true → le b c = true → le a c = true) :
    ∀ l : List α, List.Pairwise (fun a b => le b a = true) (sortDescBy le l) := by
  intro l
  induction l with
  | nil => simp [sortDescBy]
  | cons x rest ih => exact pairwise_insertDesc le htot htrans x _ ih

/-- The descending insertion sort is a permutation membership-wise. -/
theorem mem_sortDescBy {α : Type} (le : α → α → Bool) :
    ∀ (l : List α) (z : α), z ∈ sortDescBy le l ↔ z ∈ l := by
  intro l
  induction l with
  | nil => intro z; simp [sortDescBy]
  | cons x rest ih =>
      intro z
      rw [sortDescBy, mem_insertDesc]
      simp only [List.mem_cons, ih z]

/-- The candidate comparison is total. -/
theorem candLe_total (a b : RoutineCandidate) :
    candLe a b = true ∨ candLe b a = true := by
  simp only [candLe, keyLe, decide_eq_true_eq]
  rcases lt_trichotomy a.support b.support with h | h | h
  · left; left; exact h
  · rcases le_total a.confidence b.confidence with hc | hc
    · left; right; exact ⟨h, hc⟩
    · right; right; exact ⟨h.symm, hc⟩
  · right; left; exact h

/-- The candidate comparison is transitive. -/
theorem candLe_trans (a b c : RoutineCandidate) :
    candLe a b = true → candLe b c = true → candLe a c = true := by
  simp only [candLe, keyLe, decide_eq_true_eq]
  rintro (h1 | ⟨hs1, hc1⟩) (h2 | ⟨hs2, hc2⟩)
  · left; omega
  · left; omega
  · left; omega
  · right; exact ⟨hs1.trans hs2, hc1.trans hc2⟩

/-- The mined confidence as the spec's product: support times
(1 + recency bonus) times (1 + periodicity bonus), the recency read off
the floored day difference. -/
theorem routine_confidence_product (s : Int) (wc : List (Int × Int)) (ls now : Int) :
    routine_confidence s wc ls now =
      (s : ℚ) *
        (1 + (if Int.fdiv (now - ls) 86400000000 ≤ 1 then (3 : ℚ)/10
              else if Int.fdiv (now - ls) 86400000000 ≤ 7 then (1 : ℚ)/10 else 0)) *
        (1 + (if wc.any (fun p => 2 ≤ p.2) then (1 : ℚ)/10 else 0)) := by
  unfold routine_confidence
  rw [Rat.mkRat_eq_div]
  split_ifs <;> push_cast <;> ring

/-- C7 (amended).  Every candidate the miner returns is built from a
mined statistics entry of `routineStats` whose support is at least
`min_support`; the candidate reports that entry's support and last-seen
timestamp, and its confidence is exactly
`support · (1 + recency_bonus) · (1 + periodicity_bonus)` computed from
that same entry: the recency bonus is 0.3 when the FLOORED day
difference `(now − last_seen).days` is at most 1 (so for anything seen
less than 2 days ago), 0.1 when at most 7, else 0, and the periodicity
bonus is 0.1 when some weekday count of the entry reaches 2; the list is
sorted by (support descending, confidence descending) and has at most
`max_patterns` entries. -/
theorem c7_routine_scoring_amended
    (sessions : List RoutineSession) (nMin nMax : Nat)
    (minSupport maxPatterns maxEvidence : Int) (now : Int)
    (hashPattern : String → String) :
    (∀ c ∈ build_routine_candidates sessions nMin nMax minSupport maxPatterns
        maxEvidence now hashPattern,
      ∃ pe ∈ routineStats sessions nMin nMax,
        minSupport ≤ pe.2.support ∧
        c = mkCandidate maxEvidence now hashPattern pe.1 pe.2 ∧
        c.support = pe.2.support ∧
        c.last_seen_ts = format_ts (pe.2.last_seen.getD now) ∧
        c.confidence =
          (pe.2.support : ℚ) *
            (1 + (if Int.fdiv (now - pe.2.last_seen.getD now) 86400000000 ≤ 1
                  then (3 : ℚ)/10
                  else if Int.fdiv (now - pe.2.last_seen.getD now) 86400000000 ≤ 7
                  then (1 : ℚ)/10
                  else 0)) *
            (1 + (if pe.2.weekday_counts.any (fun p => 2 ≤ p.2) then (1 : ℚ)/10
                  else 0))) ∧
    List.Pairwise
      (fun a b => b.support < a.support ∨
        (b.support = a.support ∧ b.confidence ≤ a.confidence))
      (build_routine_candidates sessions nMin nMax minSupport maxPatterns
        maxEvidence now hashPattern) ∧
    (build_routine_candidates sessions nMin nMax minSupport maxPatterns
      maxEvidence now hashPattern).length ≤ maxPatterns.toNat := by
  rw [build_routine_candidates]
  split
  · exact ⟨fun c hc => absurd hc (List.not_mem_nil c), List.Pairwise.nil, by simp⟩
  · refine ⟨?_, ?_, ?_⟩
    · intro c hc
      have hc1 : c ∈ sortDescBy candLe
          ((routineStats sessions nMin nMax).filterMap (fun pe =>
            if pe.2.support < minSupport then Option.none
            else some (mkCandidate maxEvidence now hashPattern pe.1 pe.2))) :=
        List.mem_of_mem_take hc
      rw [mem_sortDescBy] at hc1
      obtain ⟨pe, hpe_mem, hpe⟩ := List.mem_filterMap.mp hc1
      split at hpe
      · cases hpe
      · rename_i hsupp
        rw [Option.some.injEq] at hpe
        subst hpe
        refine ⟨pe, hpe_mem, not_lt.mp hsupp, rfl, rfl, rfl, ?_⟩
        show routine_confidence pe.2.support pe.2.weekday_counts
          (pe.2.last_seen.getD now) now = _
        rw [routine_confidence_product]
    · have hp := pairwise_sortDescBy candLe candLe_total candLe_trans
        ((routineStats sessions nMin nMax).filterMap (fun pe =>
          if pe.2.support < minSupport then Option.none
          else some (mkCandidate maxEvidence now hashPattern pe.1 pe.2)))
      have hp2 := hp.sublist (List.take_sublist maxPatterns.toNat _)
      refine hp2.imp ?_
      intro a b h
      simpa [candLe, keyLe] using h
    · exact List.length_take_le _ _

/-- C7 counterexample.  A pattern last seen 1.5 days ago — NOT within
1 day — still gets the 0.3 recency bonus, because the code tests the
floored day difference (`(now - last_seen).days <= 1`): the miner scores
it 2·1.3·1.0 = 13/5, while the claim's within-1-day/within-7-days
reading yields 2·1.1·1.0 = 11/5. -/
theorem c7_routine_scoring_counterexample :
    ∃ c, build_routine_candidates c7Sessions 1 1 2 10 5 c7Now
        (fun s => "H[" ++ s ++ "]") = [c] ∧
      c.support = 2 ∧
      c.last_seen_ts = format_ts c7LastSeen ∧
      c.confidence = mkRat 13 5 ∧
      claimConfidenceSpec c.support [(1, 1), (0, 1)] c7LastSeen c7Now = mkRat 11 5 ∧
      c.confidence ≠ claimConfidenceSpec c.support [(1, 1), (0, 1)] c7LastSeen c7Now := by
  refine ⟨_, rfl, ?_, ?_, ?_, ?_, ?_⟩ <;> decide

/-! ## C8: normalizer round trip -/
/-- Digit accumulation never empties a non-empty accumulator. -/
theorem toDigitsCore_ne_nil :
    ∀ (fuel n : Nat) (acc : List Char), acc ≠ [] →
      Nat.toDigitsCore 10 fuel n acc ≠ [] := by
  intro fuel
  induction fuel with
  | zero => intro n acc h; simpa [Nat.toDigitsCore] using h
  | succ f ih =>
      intro n acc h
      rw [Nat.toDigitsCore]
      split
      · exact List.cons_ne_nil _ _
      · exact ih _ _ (List.cons_ne_nil _ _)

/-- A natural number prints at least one digit. -/
theorem toDigits_ne_nil (n : Nat) : Nat.toDigits 10 n ≠ [] := by
  rw [Nat.toDigits, Nat.toDigitsCore]
  split
  · exact List.cons_ne_nil _ _
  · exact toDigitsCore_ne_nil _ _ _ (List.cons_ne_nil _ _)

/-- `Nat.repr` is never the empty string. -/
theorem natRepr_ne_empty (n : Nat) : Nat.repr n ≠ "" := by
  rw [Nat.repr]
  intro h
  have hd := congrArg String.data h
  simp only [List.asString] at hd
  exact toDigits_ne_nil n hd

/-- `str(int)` is never the empty string. -/
theorem intToString_ne_empty (n : Int) : toString n ≠ "" := by
  cases n with
  | ofNat m => exact natRepr_ne_empty m
  | negSucc m =>
      show "-" ++ Nat.repr (m + 1) ≠ ""
      intro h
      have hd := congrArg String.data h
      rw [String.data_append] at hd
      simp at hd

/-- `str(v)` is empty only for the empty Python string itself. -/
theorem pythonStr_ne_empty (v : PVal) (h : v ≠ .str "") : pythonStr v ≠ "" := by
  cases v with
  | str s =>
      intro hs
      exact h (by rw [show s = "" from hs])
  | int n => exact intToString_ne_empty n
  | bool b => cases b <;> decide
  | none => decide
  | list items =>
      show "[" ++ pythonStrList items ++ "]" ≠ ""
      intro hcontra
      have hd := congrArg String.data hcontra
      rw [String.data_append, String.data_append] at hd
      simp at hd
  | dict items =>
      show "\x7b" ++ pythonStrKVs items ++ "\x7d" ≠ ""
      intro hcontra
      have hd := congrArg String.data hcontra
      rw [String.data_append, String.data_append] at hd
      simp at hd

/-- A non-empty timestamp string re-normalizes to itself. -/
theorem normalize_ts_stable (s : String) (hs : s ≠ "") (am : Bool)
    (lvl now' : String) : normalize_ts (.str s) am lvl now' = .ok s := by
  rw [normalize_ts, if_neg]
  rintro (h | h)
  · cases h
  · exact hs (by injection h)

/-- A non-empty event id re-normalizes to itself when it satisfies the
strict UUID check whenever the level demands it. -/
theorem normalize_event_id_stable (s : String) (hs : s ≠ "") (am : Bool)
    (lvl u' : String) (hv : lvl = "strict" → pyUuidValid s = true) :
    normalize_event_id (.str s) am lvl u' = .ok s := by
  have h1 : ¬ ¬ pvalTruthy (PVal.str s) = true := by simpa [pvalTruthy] using hs
  rw [normalize_event_id, if_neg h1, if_neg]
  · rfl
  · rintro ⟨hstrict, hbad⟩
    exact hbad (hv hstrict)

/-- A non-empty string re-normalizes to itself as a required field. -/
theorem normalize_required_str_stable (s : String) (hs : s ≠ "")
    (name : String) (am : Bool) :
    normalize_required_str (.str s) name am = .ok s := by
  rw [normalize_required_str, if_neg]
  · rfl
  · rintro (h | h)
    · cases h
    · exact hs (by injection h)

/-- A valid priority re-normalizes to itself. -/
theorem normalize_priority_stable (s : String) (hs : s ∈ VALID_PRIORITIES)
    (am : Bool) : normalize_priority (.str s) am = .ok s := by
  have hs' : s = "P0" ∨ s = "P1" ∨ s = "P2" := by
    simpa [VALID_PRIORITIES] using hs
  have hne : s ≠ "" := by
    rcases hs' with rfl | rfl | rfl <;> decide
  have h1 : ¬ ¬ pvalTruthy (PVal.str s) = true := by simpa [pvalTruthy] using hne
  have h2 : VALID_PRIORITIES.contains s = true := by simpa using hs
  rw [normalize_priority, if_neg h1]
  show (if VALID_PRIORITIES.contains s = true then Except.ok s
    else if am = true then Except.ok "P1" else Except.error "invalid priority") =
    Except.ok s
  rw [if_pos h2]

/-- A resource whose fields are non-empty re-normalizes to itself. -/
theorem normalize_resource_stable (t i : String) (ht : t ≠ "") (hi : i ≠ "")
    (am : Bool) :
    normalize_resource (.dict [("type", .str t), ("id", .str i)]) am =
      .ok (ResourceRef.mk t i) := by
  rw [normalize_resource]
  rw [if_neg]
  · rfl
  · rintro ((h | h) | (h | h))
    · simpa [dget, alookup] using h
    · refine ht ?_
      have : PVal.str t = PVal.str "" := by simpa [dget, alookup] using h
      injection this
    · simpa [dget, alookup] using h
    · refine hi ?_
      have : PVal.str i = PVal.str "" := by simpa [dget, alookup] using h
      injection this

/-- A privacy block with non-empty pii level and a string redaction list
re-normalizes to itself. -/
theorem normalize_privacy_stable (p : String) (hp : p ≠ "") (l : List String)
    (am : Bool) (lvl : String) :
    normalize_privacy (.dict [("pii_level", .str p),
      ("redaction", .list (l.map PVal.str))]) am lvl =
      .ok (PrivacyMetadata.mk p l) := by
  have hp' : ¬ p = "" := hp
  have hcomp : (pythonStr ∘ PVal.str) = id := by
    funext s; rfl
  simp [normalize_privacy, dget, alookup, pvalTruthy, hp', pythonStr,
    List.map_map, hcomp, pure, Except.pure]
  rfl

theorem parse_version_empty : parse_version "" = Option.none := by decide

/-- The wire form always carries every required field. -/
theorem ensure_required_toWire (e : EventEnvelope) :
    ensure_required_fields [("schema_version", PVal.str e.schema_version),
      ("event_id", PVal.str e.event_id),
      ("ts", PVal.str e.ts),
      ("source", PVal.str e.source),
      ("app", PVal.str e.app),
      ("event_type", PVal.str e.event_type),
      ("priority", PVal.str e.priority),
      ("resource", PVal.dict [("type", PVal.str e.resource.type),
        ("id", PVal.str e.resource.id)]),
      ("payload", PVal.dict e.payload),
      ("privacy", PVal.dict [("pii_level", PVal.str e.privacy.pii_level),
        ("redaction", PVal.list (e.privacy.redaction.map PVal.str))]),
      ("pid", match e.pid with | some n => PVal.int n | Option.none => PVal.none),
      ("window_id", match e.window_id with
        | some s => PVal.str s | Option.none => PVal.none)] = .ok () := rfl

/-- Feeding a produced envelope's wire form back through the normalizer
reproduces it, except that `raw` now holds the wire form. -/
theorem normalize_toWire (e : EventEnvelope) (level now' fresh' : String)
    (hlvl : pyLower (pyStrip level) = "lenient" ∨ pyLower (pyStrip level) = "strict")
    (v : Int × Int) (hsv : parse_version e.schema_version = some v)
    (heid : e.event_id ≠ "")
    (heidv : pyLower (pyStrip level) = "strict" → pyUuidValid e.event_id = true)
    (hts : e.ts ≠ "") (hsrc : e.source ≠ "") (happ : e.app ≠ "")
    (het : e.event_type ≠ "")
    (hpri : e.priority ∈ VALID_PRIORITIES)
    (hrt : e.resource.type ≠ "") (hri : e.resource.id ≠ "")
    (hpii : e.privacy.pii_level ≠ "")
    (hwin : ∀ s, e.window_id = some s → s ≠ "") :
    normalize_event (toWire e) level now' fresh' = .ok { e with raw := toWire e } := by
  have hlvlne : ¬ (pyLower (pyStrip level) ≠ "lenient" ∧
      pyLower (pyStrip level) ≠ "strict") := by
    rcases hlvl with h | h
    · rintro ⟨h1, -⟩; exact h1 h
    · rintro ⟨-, h2⟩; exact h2 h
  have hsvne : e.schema_version ≠ "" := by
    intro hcontra
    rw [hcontra, parse_version_empty] at hsv
    cases hsv
  simp only [toWire, normalize_event]
  rw [if_neg hlvlne]
  simp only [dget, alookup, String.reduceEq, reduceIte]
  rw [if_pos (show pvalTruthy (PVal.str e.schema_version) = true from by
    simpa [pvalTruthy] using hsvne)]
  simp only [pythonStr]
  rw [hsv]
  simp only [bind, Except.bind, pure, Except.pure]
  rw [normalize_event_id_stable e.event_id heid _ _ _ heidv]
  rw [normalize_ts_stable e.ts hts]
  rw [normalize_required_str_stable e.source hsrc]
  rw [normalize_required_str_stable e.app happ]
  rw [normalize_required_str_stable e.event_type het]
  rw [normalize_priority_stable e.priority hpri]
  rw [normalize_resource_stable e.resource.type e.resource.id hrt hri]
  rw [normalize_privacy_stable e.privacy.pii_level hpii e.privacy.redaction]
  have hpl : ∀ (am : Bool) (lvl : String),
      normalize_payload (PVal.dict e.payload) am lvl = .ok e.payload :=
    fun _ _ => rfl
  rw [hpl]
  simp only []
  rw [ensure_required_toWire e]
  simp only [ite_self]
  rcases hp : e.pid with _ | n <;> rcases hw : e.window_id with _ | s <;>
    simp only [normalize_pid, normalize_window_id] <;>
    first
    | rfl
    | rw [if_pos (hwin s hw)]

/-- Appending `Z` never yields the empty string. -/
theorem append_Z_ne_empty (x : String) : x ++ "Z" ≠ "" := by
  intro h
  have hd := congrArg String.data h
  rw [String.data_append] at hd
  simp at hd

/-- A truthy value is not the empty Python string. -/
theorem pvalTruthy_ne_empty_str (v : PVal) (h : pvalTruthy v = true) :
    v ≠ .str "" := by
  intro hv
  rw [hv] at h
  simp [pvalTruthy] at h

/-- A normalized timestamp is non-empty (given a non-empty clock). -/
theorem normalize_ts_ok (v : PVal) (am : Bool) (lvl now : String) (s : String)
    (hnow : now ≠ "") (h : normalize_ts v am lvl now = .ok s) : s ≠ "" := by
  cases v <;> simp only [normalize_ts] at h <;> split at h
  case str.isTrue s0 _ =>
    split at h
    · rw [Except.ok.injEq] at h; subst h; exact hnow
    · cases h
  case str.isFalse s0 hcond =>
    rw [Except.ok.injEq] at h; subst h
    intro hc
    exact hcond (Or.inr (by rw [hc]))
  case int.isTrue =>
    split at h
    · rw [Except.ok.injEq] at h; subst h; exact hnow
    · cases h
  case int.isFalse =>
    split at h
    · cases h
    · rw [Except.ok.injEq] at h; subst h; exact append_Z_ne_empty _
  case bool.isTrue =>
    split at h
    · rw [Except.ok.injEq] at h; subst h; exact hnow
    · cases h
  case bool.isFalse =>
    split at h
    · cases h
    · rw [Except.ok.injEq] at h; subst h; exact append_Z_ne_empty _
  case none.isTrue =>
    split at h
    · rw [Except.ok.injEq] at h; subst h; exact hnow
    · cases h
  case none.isFalse =>
    split at h
    · cases h
    · rw [Except.ok.injEq] at h; subst h; exact hnow
  case list.isTrue =>
    split at h
    · rw [Except.ok.injEq] at h; subst h; exact hnow
    · cases h
  case list.isFalse =>
    split at h
    · cases h
    · rw [Except.ok.injEq] at h; subst h; exact hnow
  case dict.isTrue =>
    split at h
    · rw [Except.ok.injEq] at h; subst h; exact hnow
    · cases h
  case dict.isFalse =>
    split at h
    · cases h
    · rw [Except.ok.injEq] at h; subst h; exact hnow

/-- A normalized event id is non-empty and, at strict level, a valid
UUID (given a fresh uuid with those properties). -/
theorem normalize_event_id_ok (v : PVal) (am : Bool) (lvl u : String)
    (s : String) (hune : u ≠ "") (huv : pyUuidValid u = true)
    (h : normalize_event_id v am lvl u = .ok s) :
    s ≠ "" ∧ (lvl = "strict" → pyUuidValid s = true) := by
  simp only [normalize_event_id] at h
  split at h
  · split at h
    · rw [Except.ok.injEq] at h; subst h; exact ⟨hune, fun _ => huv⟩
    · cases h
  · rename_i htr
    rw [not_not] at htr
    split at h
    · cases h
    · rename_i hcheck
      rw [Except.ok.injEq] at h; subst h
      refine ⟨pythonStr_ne_empty v (pvalTruthy_ne_empty_str v htr), ?_⟩
      intro hstrict
      by_contra hbad
      exact hcheck ⟨hstrict, fun hv => hbad hv⟩

/-- A normalized required string is non-empty. -/
theorem normalize_required_str_ok (v : PVal) (name : String) (am : Bool)
    (s : String) (h : normalize_required_str v name am = .ok s) : s ≠ "" := by
  simp only [normalize_required_str] at h
  split at h
  · split at h
    · rw [Except.ok.injEq] at h; subst h; decide
    · cases h
  · rename_i hcond
    rw [Except.ok.injEq] at h; subst h
    refine pythonStr_ne_empty v ?_
    intro hv
    exact hcond (Or.inr hv)

/-- A normalized priority is one of P0, P1, P2. -/
theorem normalize_priority_ok (v : PVal) (am : Bool) (s : String)
    (h : normalize_priority v am = .ok s) : s ∈ VALID_PRIORITIES := by
  cases v <;> simp only [normalize_priority] at h <;> split at h
  case str.isTrue =>
    split at h
    · rw [Except.ok.injEq] at h; subst h; decide
    · cases h
  case str.isFalse s0 _ =>
    split at h
    · rename_i hmem
      rw [Except.ok.injEq] at h; subst h
      simpa using hmem
    · split at h
      · rw [Except.ok.injEq] at h; subst h; decide
      · cases h
  all_goals first
  | (split at h
     · rw [Except.ok.injEq] at h; subst h; decide
     · cases h)

/-- A normalized resource has non-empty type and id. -/
theorem normalize_resource_ok (v : PVal) (am : Bool) (r : ResourceRef)
    (h : normalize_resource v am = .ok r) : r.type ≠ "" ∧ r.id ≠ "" := by
  cases v <;> simp only [normalize_resource] at h
  case dict items =>
    split at h
    · split at h
      · rw [Except.ok.injEq] at h; subst h; exact ⟨by decide, by decide⟩
      · cases h
    · rename_i hcond
      rw [Except.ok.injEq] at h; subst h
      constructor
      · exact pythonStr_ne_empty _ (fun hv => hcond (Or.inl (Or.inr hv)))
      · exact pythonStr_ne_empty _ (fun hv => hcond (Or.inr (Or.inr hv)))
  all_goals
    split at h
  all_goals first
  | (rw [Except.ok.injEq] at h; subst h; exact ⟨by decide, by decide⟩)
  | cases h

/-- A normalized privacy block has a non-empty pii level. -/
theorem normalize_privacy_ok (v : PVal) (am : Bool) (lvl : String)
    (p : PrivacyMetadata) (h : normalize_privacy v am lvl = .ok p) :
    p.pii_level ≠ "" := by
  cases v <;> simp only [normalize_privacy, bind, Except.bind, pure, Except.pure] at h
  case dict items =>
    split at h
    · split at h
      · split at h
        · split at h
          · cases h
          · rw [Except.ok.injEq] at h; subst h
            show pythonStr (PVal.str "unknown") ≠ ""
            decide
        · rw [Except.ok.injEq] at h; subst h
          show pythonStr (PVal.str "unknown") ≠ ""
          decide
        · split at h
          · cases h
          · rw [Except.ok.injEq] at h; subst h
            show pythonStr (PVal.str "unknown") ≠ ""
            decide
      · cases h
    · rename_i htr
      rw [not_not] at htr
      split at h
      · split at h
        · cases h
        · rw [Except.ok.injEq] at h; subst h
          exact pythonStr_ne_empty _ (pvalTruthy_ne_empty_str _ htr)
      · rw [Except.ok.injEq] at h; subst h
        exact pythonStr_ne_empty _ (pvalTruthy_ne_empty_str _ htr)
      · split at h
        · cases h
        · rw [Except.ok.injEq] at h; subst h
          exact pythonStr_ne_empty _ (pvalTruthy_ne_empty_str _ htr)
  all_goals
    split at h
  all_goals first
  | (rw [Except.ok.injEq] at h; subst h; decide)
  | cases h

/-- A normalized window id is non-empty. -/
theorem normalize_window_id_ok (v : PVal) (s : String)
    (h : normalize_window_id v = some s) : s ≠ "" := by
  cases v <;> simp only [normalize_window_id] at h
  case str s0 =>
    split at h
    · rename_i hne
      rw [Option.some.injEq] at h; subst h; exact hne
    · cases h
  case int n =>
    rw [Option.some.injEq] at h; subst h; exact intToString_ne_empty n
  case bool b =>
    rw [Option.some.injEq] at h; subst h
    cases b <;> decide
  all_goals cases h

/-- Everything a successful normalization guarantees about its output
envelope (given a wellformed clock and fresh uuid). -/
theorem normalize_event_facts (raw : PVal) (level now fresh : String)
    (e : EventEnvelope)
    (hnow : now ≠ "") (hfne : fresh ≠ "") (hfv : pyUuidValid fresh = true)
    (hok : normalize_event raw level now fresh = .ok e) :
    (pyLower (pyStrip level) = "lenient" ∨ pyLower (pyStrip level) = "strict") ∧
    (∃ v, parse_version e.schema_version = some v) ∧
    e.event_id ≠ "" ∧
    (pyLower (pyStrip level) = "strict" → pyUuidValid e.event_id = true) ∧
    e.ts ≠ "" ∧ e.source ≠ "" ∧ e.app ≠ "" ∧ e.event_type ≠ "" ∧
    e.priority ∈ VALID_PRIORITIES ∧
    e.resource.type ≠ "" ∧ e.resource.id ≠ "" ∧
    e.privacy.pii_level ≠ "" ∧
    (∀ s, e.window_id = some s → s ≠ "") ∧
    e.raw = raw := by
  cases raw <;>
    simp only [normalize_event, bind, Except.bind, pure, Except.pure] at hok
  case dict items =>
    split at hok
    · cases hok
    · rename_i hlvl0
      have hlvl : pyLower (pyStrip level) = "lenient" ∨
          pyLower (pyStrip level) = "strict" := by
        by_contra hc
        rw [not_or] at hc
        exact hlvl0 ⟨hc.1, hc.2⟩
      split at hok
      · rename_i v heqv
        split at hok
        · cases hok
        · rename_i eid heq1
          split at hok
          · cases hok
          · rename_i ts0 heq2
            split at hok
            · cases hok
            · rename_i src heq3
              split at hok
              · cases hok
              · rename_i app0 heq4
                split at hok
                · cases hok
                · rename_i etype heq5
                  split at hok
                  · cases hok
                  · rename_i pri heq6
                    split at hok
                    · cases hok
                    · rename_i res heq7
                      split at hok
                      · cases hok
                      · rename_i pay heq8
                        split at hok
                        · cases hok
                        · rename_i priv heq9
                          split at hok
                          · split at hok
                            · cases hok
                            · rw [Except.ok.injEq] at hok
                              subst hok
                              refine ⟨hlvl, ⟨v, heqv⟩, (normalize_event_id_ok _ _ _ _ _ hfne hfv heq1).1,
                                (normalize_event_id_ok _ _ _ _ _ hfne hfv heq1).2,
                                normalize_ts_ok _ _ _ _ _ hnow heq2,
                                normalize_required_str_ok _ _ _ _ heq3,
                                normalize_required_str_ok _ _ _ _ heq4,
                                normalize_required_str_ok _ _ _ _ heq5,
                                normalize_priority_ok _ _ _ heq6,
                                (normalize_resource_ok _ _ _ heq7).1,
                                (normalize_resource_ok _ _ _ heq7).2,
                                normalize_privacy_ok _ _ _ _ heq9,
                                fun s hs => normalize_window_id_ok _ s hs, rfl⟩
                          · rw [Except.ok.injEq] at hok
                            subst hok
                            refine ⟨hlvl, ⟨v, heqv⟩, (normalize_event_id_ok _ _ _ _ _ hfne hfv heq1).1,
                              (normalize_event_id_ok _ _ _ _ _ hfne hfv heq1).2,
                              normalize_ts_ok _ _ _ _ _ hnow heq2,
                              normalize_required_str_ok _ _ _ _ heq3,
                              normalize_required_str_ok _ _ _ _ heq4,
                              normalize_required_str_ok _ _ _ _ heq5,
                              normalize_priority_ok _ _ _ heq6,
                              (normalize_resource_ok _ _ _ heq7).1,
                              (normalize_resource_ok _ _ _ heq7).2,
                              normalize_privacy_ok _ _ _ _ heq9,
                              fun s hs => normalize_window_id_ok _ s hs, rfl⟩
      · split at hok
        · cases hok
        · split at hok
          · cases hok
          · rename_i eid heq1
            split at hok
            · cases hok
            · rename_i ts0 heq2
              split at hok
              · cases hok
              · rename_i src heq3
                split at hok
                · cases hok
                · rename_i app0 heq4
                  split at hok
                  · cases hok
                  · rename_i etype heq5
                    split at hok
                    · cases hok
                    · rename_i pri heq6
                      split at hok
                      · cases hok
                      · rename_i res heq7
                        split at hok
                        · cases hok
                        · rename_i pay heq8
                          split at hok
                          · cases hok
                          · rename_i priv heq9
                            split at hok
                            · split at hok
                              · cases hok
                              · rw [Except.ok.injEq] at hok
                                subst hok
                                refine ⟨hlvl, ⟨(1, 0), by show parse_version DEFAULT_SCHEMA_VERSION = some (1, 0); decide⟩, (normalize_event_id_ok _ _ _ _ _ hfne hfv heq1).1,
                                  (normalize_event_id_ok _ _ _ _ _ hfne hfv heq1).2,
                                  normalize_ts_ok _ _ _ _ _ hnow heq2,
                                  normalize_required_str_ok _ _ _ _ heq3,
                                  normalize_required_str_ok _ _ _ _ heq4,
                                  normalize_required_str_ok _ _ _ _ heq5,
                                  normalize_priority_ok _ _ _ heq6,
                                  (normalize_resource_ok _ _ _ heq7).1,
                                  (normalize_resource_ok _ _ _ heq7).2,
                                  normalize_privacy_ok _ _ _ _ heq9,
                                  fun s hs => normalize_window_id_ok _ s hs, rfl⟩
                            · rw [Except.ok.injEq] at hok
                              subst hok
                              refine ⟨hlvl, ⟨(1, 0), by show parse_version DEFAULT_SCHEMA_VERSION = some (1, 0); decide⟩, (normalize_event_id_ok _ _ _ _ _ hfne hfv heq1).1,
                                (normalize_event_id_ok _ _ _ _ _ hfne hfv heq1).2,
                                normalize_ts_ok _ _ _ _ _ hnow heq2,
                                normalize_required_str_ok _ _ _ _ heq3,
                                normalize_required_str_ok _ _ _ _ heq4,
                                normalize_required_str_ok _ _ _ _ heq5,
                                normalize_priority_ok _ _ _ heq6,
                                (normalize_resource_ok _ _ _ heq7).1,
                                (normalize_resource_ok _ _ _ heq7).2,
                                normalize_privacy_ok _ _ _ _ heq9,
                                fun s hs => normalize_window_id_ok _ s hs, rfl⟩
  all_goals cases hok

/-- C8 (amended).  Renormalizing a produced envelope (through its §6
wire form, at the same level, under any clock and fresh uuid) returns it
unchanged except for the `raw` replay field, which now holds the wire
form instead of the original input dict. -/
theorem c8_normalizer_idempotence_amended
    (raw : PVal) (level nowIso freshUuid nowIso2 freshUuid2 : String)
    (e1 : EventEnvelope)
    (hnow : nowIso ≠ "") (hfne : freshUuid ≠ "")
    (hfv : pyUuidValid freshUuid = true)
    (hok : normalize_event raw level nowIso freshUuid = .ok e1) :
    normalize_event (toWire e1) level nowIso2 freshUuid2 =
      .ok { e1 with raw := toWire e1 } := by
  obtain ⟨hlvl, ⟨v, hsv⟩, heid, heidv, hts, hsrc, happ, het, hpri, hrt, hri,
    hpii, hwin, -⟩ :=
    normalize_event_facts raw level nowIso freshUuid e1 hnow hfne hfv hok
  exact normalize_toWire e1 level nowIso2 freshUuid2 hlvl v hsv heid heidv hts
    hsrc happ het hpri hrt hri hpii hwin

/-- C8 counterexample.  Normalization is not literally idempotent: the
produced envelope's `raw` field holds the dict that was fed in, so the
second pass, fed the first envelope's wire form, returns an envelope
differing from the first in exactly that field. -/
theorem c8_normalizer_idempotence_counterexample :
    ∃ e1 e2, normalize_event c8Raw "lenient" c8Now c8Uuid = .ok e1 ∧
      normalize_event (toWire e1) "lenient" c8Now c8Uuid = .ok e2 ∧
      e2 ≠ e1 ∧ e2 = { e1 with raw := toWire e1 } ∧
      e1.raw = c8Raw ∧ toWire e1 ≠ c8Raw := by
  refine ⟨_, _, rfl, rfl, ?_, ?_, ?_, ?_⟩ <;> decide

/-- Witness for the amended C8 theorem at a concrete input. -/
theorem c8_normalizer_idempotence_amended_witness :
    normalize_event (toWire c8E1) "lenient" "now2" "uuid2" =
      .ok { c8E1 with raw := toWire c8E1 } :=
  c8_normalizer_idempotence_amended c8Raw "lenient" c8Now c8Uuid "now2" "uuid2"
    c8E1 (by decide) (by decide) (by decide) rfl

/-! ## C10: insert_events atomicity and retries -/
/-- Full characterization of the retry loop: some number `k` of leading
lock-error attempts, each slept with exponential backoff, then either a
single committing attempt appending the whole batch, or a terminal error
(non-lock, or retries exhausted) leaving the table untouched. -/
theorem insertLoop_spec (rows events : List EventRow) (b : ℚ)
    (outcomes : Nat → AttemptOutcome) :
    ∀ (remaining attempt : Nat) (sleeps : List ℚ),
      ∃ k ≤ remaining,
        (insertLoop rows events b outcomes remaining attempt sleeps).sleeps =
          sleeps ++ (List.range k).map (fun j => b / 1000 * 2 ^ (attempt + j)) ∧
        (∀ j < k, ∃ m, outcomes (attempt + j) = .opError m ∧ isLockError m = true) ∧
        ((outcomes (attempt + k) = .success ∧
            (insertLoop rows events b outcomes remaining attempt sleeps).events =
              events ++ rows ∧
            (insertLoop rows events b outcomes remaining attempt sleeps).error =
              Option.none) ∨
         (∃ m, outcomes (attempt + k) = .opError m ∧
            (insertLoop rows events b outcomes remaining attempt sleeps).events =
              events ∧
            (insertLoop rows events b outcomes remaining attempt sleeps).error =
              some m ∧
            (isLockError m = false ∨ k = remaining))) := by
  intro remaining
  induction remaining with
  | zero =>
      intro attempt sleeps
      rcases ho : outcomes attempt with _ | m
      · refine ⟨0, Nat.le_refl 0, ?_, ?_, Or.inl ⟨by simpa using ho, ?_, ?_⟩⟩ <;>
          simp [insertLoop, ho]
      · by_cases hl : isLockError m = true
        · refine ⟨0, Nat.le_refl 0, ?_, ?_,
            Or.inr ⟨m, by simpa using ho, ?_, ?_, Or.inr rfl⟩⟩ <;>
            simp [insertLoop, ho, hl]
        · rw [Bool.not_eq_true] at hl
          refine ⟨0, Nat.le_refl 0, ?_, ?_,
            Or.inr ⟨m, by simpa using ho, ?_, ?_, Or.inl hl⟩⟩ <;>
            simp [insertLoop, ho, hl]
  | succ r ih =>
      intro attempt sleeps
      rcases ho : outcomes attempt with _ | m
      · refine ⟨0, Nat.zero_le _, ?_, ?_, Or.inl ⟨by simpa using ho, ?_, ?_⟩⟩ <;>
          simp [insertLoop, ho]
      · by_cases hl : isLockError m = true
        · have hred : insertLoop rows events b outcomes (r + 1) attempt sleeps =
              insertLoop rows events b outcomes r (attempt + 1)
                (sleeps ++ [b / 1000 * 2 ^ attempt]) := by
            rw [insertLoop]
            simp [ho, hl]
          obtain ⟨k', hk', hsl, hlock, hend⟩ :=
            ih (attempt + 1) (sleeps ++ [b / 1000 * 2 ^ attempt])
          rw [hred]
          refine ⟨k' + 1, by omega, ?_, ?_, ?_⟩
          · rw [hsl]
            have hmap : (List.range (k' + 1)).map
                (fun j => b / 1000 * 2 ^ (attempt + j)) =
                (b / 1000 * 2 ^ attempt) ::
                  (List.range k').map (fun j => b / 1000 * 2 ^ (attempt + 1 + j)) := by
              rw [List.range_succ_eq_map, List.map_cons, List.map_map]
              simp only [Nat.add_zero]
              refine congrArg _ (List.map_congr_left ?_)
              intro j _
              have hj : attempt + (j + 1) = attempt + 1 + j := by omega
              simp [Function.comp, Nat.succ_eq_add_one, hj]
            rw [hmap]
            simp
          · intro j hj
            match j with
            | 0 => exact ⟨m, by simpa using ho, hl⟩
            | j' + 1 =>
                obtain ⟨m', hm', hml⟩ := hlock j' (by omega)
                refine ⟨m', ?_, hml⟩
                rw [show attempt + (j' + 1) = attempt + 1 + j' from by omega]
                exact hm'
          · rw [show attempt + (k' + 1) = attempt + 1 + k' from by omega]
            rcases hend with ⟨h1, h2, h3⟩ | ⟨m', h1, h2, h3, h4⟩
            · exact Or.inl ⟨h1, h2, h3⟩
            · refine Or.inr ⟨m', h1, h2, h3, ?_⟩
              rcases h4 with h4 | h4
              · exact Or.inl h4
              · exact Or.inr (by omega)
        · rw [Bool.not_eq_true] at hl
          refine ⟨0, Nat.zero_le _, ?_, ?_,
            Or.inr ⟨m, by simpa using ho, ?_, ?_, Or.inl hl⟩⟩ <;>
            simp [insertLoop, ho, hl]

/-- C10.  `insert_events` is atomic per batch and retries only on lock
errors: either the batch is empty (no-op), or building the rows raises
(encryption enabled without a key) with nothing written, or the rows are
built and there is a `k ≤ max(0, retry_attempts)` such that the first
`k` attempts were lock errors, each slept
`retry_backoff_ms / 1000 · 2^attempt` seconds, and then either one
committing attempt appended the whole batch (no error), or a terminal
attempt failed — non-lock, or retries exhausted — leaving the events
table exactly as it was. -/
theorem c10_insert_atomic_retries (st : StoreState)
    (envelopes : List EventEnvelope) (retryAttempts retryBackoffMs : Int)
    (outcomes : Nat → AttemptOutcome) :
    (envelopes = [] ∧ insert_events st envelopes retryAttempts retryBackoffMs
        outcomes = ⟨st.events, [], Option.none⟩) ∨
    (∃ msg, envelopes.mapM (buildEventRow st) = .error msg ∧
      insert_events st envelopes retryAttempts retryBackoffMs outcomes =
        ⟨st.events, [], some msg⟩) ∨
    (∃ rows, envelopes.mapM (buildEventRow st) = .ok rows ∧
      ∃ k ≤ (max 0 retryAttempts).toNat,
        (insert_events st envelopes retryAttempts retryBackoffMs
            outcomes).sleeps =
          (List.range k).map
            (fun j => ((max 0 retryBackoffMs : Int) : ℚ) / 1000 * 2 ^ j) ∧
        (∀ j < k, ∃ m, outcomes j = .opError m ∧ isLockError m = true) ∧
        ((outcomes k = .success ∧
            (insert_events st envelopes retryAttempts retryBackoffMs
              outcomes).events = st.events ++ rows ∧
            (insert_events st envelopes retryAttempts retryBackoffMs
              outcomes).error = Option.none) ∨
         (∃ m, outcomes k = .opError m ∧
            (insert_events st envelopes retryAttempts retryBackoffMs
              outcomes).events = st.events ∧
            (insert_events st envelopes retryAttempts retryBackoffMs
              outcomes).error = some m ∧
            (isLockError m = false ∨ k = (max 0 retryAttempts).toNat)))) := by
  rw [insert_events]
  split
  · rename_i hempty
    left
    exact ⟨List.isEmpty_iff.mp hempty, rfl⟩
  · split
    · rename_i msg hmap
      right; left
      exact ⟨msg, hmap, rfl⟩
    · rename_i rows hmap
      right; right
      refine ⟨rows, hmap, ?_⟩
      obtain ⟨k, hk, hsl, hlock, hend⟩ := insertLoop_spec rows st.events
        ((max 0 retryBackoffMs : Int) : ℚ) outcomes (max 0 retryAttempts).toNat 0 []
      refine ⟨k, hk, ?_, ?_, ?_⟩
      · simpa using hsl
      · intro j hj
        obtain ⟨m, hm, hl⟩ := hlock j hj
        exact ⟨m, by simpa using hm, hl⟩
      · rcases hend with ⟨h1, h2, h3⟩ | ⟨m, h1, h2, h3, h4⟩
        · exact Or.inl ⟨by simpa using h1, h2, h3⟩
        · exact Or.inr ⟨m, by simpa using h1, h2, h3, h4⟩
